import Mathlib

/-!
# The game loop of `firmware/trezor.c`

A shallow embedding of the game that `firmware/trezor.c` runs on the device's
display: the `struct Game` state, `gameInit`, `gamePlayingUpdate`,
`gameOverUpdate`, `gameUpdate`, `gamePlayingDraw`, `gameOverDraw` and `gameDraw`.

Conventions of the embedding.

* `int16_t`, `int` and `uint32_t` values are `Int`/`Nat`; where the C code can
  leave the range of the type the result is reduced explicitly (`wrap16`,
  `wrap32`, `% 2^32`): `game.len++`, the moves of `game.x` and `game.y` (two's
  complement, as the target computes them), the conversions to `int16_t` and
  the draws. A cell is only decremented when positive and incremented when
  negative, which cannot leave the range.
* `game.field` is the memory of the array `int16_t field[OLED_WIDTH * OLED_HEIGHT]`,
  a map from offsets to cell values. Every access goes through `cellRead` or
  `cellWrite`, which check the offset against the declared size and return
  `none` outside it, so a run that returns `some` performed no out-of-bounds
  access.
* `OLED_WIDTH` and `OLED_HEIGHT` are defined in `oled.h`, which is not among the
  sources; they are parameters (`W`, `H`) of every definition that uses them.
  Statements that need the spawn to stay inside the array assume `OledOk W H`.
* `buttonUpdate()` and `random32()` are external: a tick receives the polled
  `Button` edges and a stream of random draws, and returns the rest of the
  stream.
* The display functions of `oled.h` are external too: `Display` and the four
  functions `oledClear`, `oledDrawPixel`, `oledDrawStringCenter` and
  `oledRefresh` follow the display surface that the specification describes.
-/

namespace TrezorGame

/-! ## Machine integers -/

/-- The constant `INT16_MIN` of `stdint.h`. -/
def INT16_MIN : Int := -32768

/-- The constant `UINT32_MAX` of `stdint.h`. -/
def UINT32_MAX : Nat := 4294967295

/-- Reduction of an integer to the range of `int16_t` (two's complement). -/
def wrap16 (v : Int) : Int := (v + 32768) % 65536 - 32768

/-- Reduction of an integer to the range of `int` (32 bits, two's complement). -/
def wrap32 (v : Int) : Int := (v + 2147483648) % 4294967296 - 2147483648

/-- The constant `INT_MIN` of `limits.h` for the 32-bit `int` of the target. -/
def INT_MIN : Int := -2147483648

/-- The constant `INT_MAX` of `limits.h` for the 32-bit `int` of the target. -/
def INT_MAX : Int := 2147483647

/-! ## Data model -/

/-- The C type `enum GameDir`. -/
inductive GameDir where
  | DIR_UP
  | DIR_RIGHT
  | DIR_DOWN
  | DIR_LEFT
  deriving DecidableEq, Repr

/-- The C type `enum GameState`. -/
inductive GameState where
  | STATE_PLAYING
  | STATE_GAMEOVER
  deriving DecidableEq, Repr

/-- The C type `struct Game`; `field` maps an offset into the array to the cell stored there. -/
structure Game where
  field : Nat → Int
  len : Int
  bug_lifetime : Int
  delay : Nat
  spawn_rate : Nat
  growth_rate : Int
  x : Int
  y : Int
  dir : GameDir
  state : GameState

/-- The two edges of the global `button` that the game reads after `buttonUpdate()`. -/
structure Button where
  YesUp : Bool
  NoUp : Bool
  deriving DecidableEq, Repr

/-- The stream of values that successive calls of `random32()` return. -/
abbrev Rng := Nat → Nat

/-- One call of `random32()`: the next draw, as a `uint32_t`, and the rest of the stream. -/
def random32 (rng : Rng) : Nat × Rng := (rng 0 % 4294967296, fun n => rng (n + 1))

/-- Offset computed by the expansion of `GAME_CELL(x, y)`: `y * OLED_WIDTH + x`. -/
def GAME_CELL (W : Nat) (x y : Int) : Int := y * (W : Int) + x

/-- Read of `GAME_CELL(x, y)`; `none` when the offset is outside the array. -/
def cellRead (W H : Nat) (game : Game) (x y : Int) : Option Int :=
  if 0 ≤ GAME_CELL W x y ∧ GAME_CELL W x y < ((W * H : Nat) : Int) then
    some (game.field (GAME_CELL W x y).toNat)
  else none

/-- Store `GAME_CELL(x, y) = v`; `none` when the offset is outside the array. -/
def cellWrite (W H : Nat) (game : Game) (x y : Int) (v : Int) : Option Game :=
  if 0 ≤ GAME_CELL W x y ∧ GAME_CELL W x y < ((W * H : Nat) : Int) then
    some { game with field := Function.update game.field (GAME_CELL W x y).toNat v }
  else none

/-! ## Operations -/

/-- The function `gameInit`: every member of `game` is overwritten. -/
def gameInit (game : Game) : Game :=
  { game with
    field := fun _ => 0
    state := GameState.STATE_PLAYING
    dir := GameDir.DIR_DOWN
    x := 25
    y := 0
    len := 16
    delay := 1000000
    growth_rate := 3
    bug_lifetime := Int.tdiv INT16_MIN 128
    spawn_rate := UINT32_MAX - (UINT32_MAX / 32) }

/-- The `switch` taken when `button.YesUp` is set ("right"). -/
def turnRight : GameDir → GameDir
  | GameDir.DIR_UP => GameDir.DIR_RIGHT
  | GameDir.DIR_LEFT => GameDir.DIR_UP
  | GameDir.DIR_DOWN => GameDir.DIR_LEFT
  | GameDir.DIR_RIGHT => GameDir.DIR_DOWN

/-- The `switch` taken when `button.NoUp` is set ("left"). -/
def turnLeft : GameDir → GameDir
  | GameDir.DIR_UP => GameDir.DIR_LEFT
  | GameDir.DIR_LEFT => GameDir.DIR_DOWN
  | GameDir.DIR_DOWN => GameDir.DIR_RIGHT
  | GameDir.DIR_RIGHT => GameDir.DIR_UP

/-- The block `// input` of `gamePlayingUpdate`, after `buttonUpdate()`. -/
def inputStep (button : Button) (game : Game) : Game :=
  let game := if button.YesUp then { game with dir := turnRight game.dir } else game
  if button.NoUp then { game with dir := turnLeft game.dir } else game

/-- The block `// update head` of `gamePlayingUpdate`. -/
def updateHead (game : Game) : Game :=
  match game.dir with
  | GameDir.DIR_UP => { game with y := wrap32 (game.y - 1) }
  | GameDir.DIR_LEFT => { game with x := wrap32 (game.x - 1) }
  | GameDir.DIR_DOWN => { game with y := wrap32 (game.y + 1) }
  | GameDir.DIR_RIGHT => { game with x := wrap32 (game.x + 1) }

/-- One iteration of the body of the two loops of the block `// move`. -/
def decayCell (W H : Nat) (y : Nat) (game : Game) (x : Nat) : Option Game :=
  match cellRead W H game x y with
  | none => none
  | some c =>
    if c > 0 then cellWrite W H game x y (c - 1)
    else if c < 0 then cellWrite W H game x y (c + 1)
    else some game

/-- The inner loop `for (x = 0; x < OLED_WIDTH; x++)` at row `y`. -/
def decayRow (W H : Nat) (game : Game) (y : Nat) : Option Game :=
  (List.range W).foldlM (decayCell W H y) game

/-- The outer loop `for (y = 0; y < OLED_HEIGHT; y++)`. -/
def decayPass (W H : Nat) (game : Game) : Option Game :=
  (List.range H).foldlM (decayRow W H) game

/-- The block `// spawn a bug maybe?` of `gamePlayingUpdate`. The remainders
`random32() % OLED_WIDTH` and `random32() % OLED_HEIGHT` are converted to
`int16_t`; a zero divisor is undefined and gives `none`. -/
def spawnStep (W H : Nat) (rng : Rng) (game : Game) : Option (Game × Rng) :=
  if game.spawn_rate < (random32 rng).1 then
    if W = 0 ∨ H = 0 then none
    else
      let rng1 := (random32 rng).2
      let bug_x : Int := wrap16 (((random32 rng1).1 % W : Nat) : Int)
      let rng2 := (random32 rng1).2
      let bug_y : Int := wrap16 (((random32 rng2).1 % H : Nat) : Int)
      let rng3 := (random32 rng2).2
      match cellWrite W H game bug_x bug_y (Int.tdiv INT16_MIN 128) with
      | none => none
      | some game => some (game, rng3)
  else some (game, (random32 rng).2)

/-- The function `gamePlayingUpdate`, with `button` the edges polled by
`buttonUpdate()` and `rng` the draws of `random32()`. -/
def gamePlayingUpdate (W H : Nat) (button : Button) (rng : Rng) (game : Game) :
    Option (Game × Rng) :=
  -- input
  let game := inputStep button game
  -- update head
  let game := updateHead game
  -- collisions
  if (game.x < 0 ∨ game.x ≥ (W : Int)) ∨ (game.y < 0 ∨ game.y ≥ (H : Int)) then
    some ({ game with state := GameState.STATE_GAMEOVER }, rng)
  else
    match cellRead W H game game.x game.y with
    | none => none
    | some c =>
      if c > 0 then
        some ({ game with state := GameState.STATE_GAMEOVER }, rng)
      else
        let game := if c < 0 then { game with len := wrap16 (game.len + 1) } else game
        -- move
        match decayPass W H game with
        | none => none
        | some game =>
          match cellWrite W H game game.x game.y game.len with
          | none => none
          | some game =>
            -- spawn a bug maybe?
            spawnStep W H rng game

/-- The function `gameOverUpdate`. -/
def gameOverUpdate (button : Button) (game : Game) : Game :=
  if button.YesUp then gameInit game else game

/-- The function `gameUpdate`. -/
def gameUpdate (W H : Nat) (button : Button) (rng : Rng) (game : Game) :
    Option (Game × Rng) :=
  match game.state with
  | GameState.STATE_PLAYING => gamePlayingUpdate W H button rng game
  | GameState.STATE_GAMEOVER => some (gameOverUpdate button game, rng)

/-! ## The render step -/

/-- Modelled from the spec: the display surface behind `oled.h`, which is not
among the sources. The buffer is the set of active pixels, `pixels x y`; the
strings drawn by `oledDrawStringCenter` are kept apart from the pixels, as
`labels`; `refreshes` counts the flushes to the screen. -/
structure Display where
  pixels : Nat → Nat → Bool
  labels : List (Nat × String)
  refreshes : Nat

/-- Modelled from the spec: `oledClear()` (`clear()` of the display surface) empties the buffer. -/
def oledClear (d : Display) : Display :=
  { d with pixels := fun _ _ => false, labels := [] }

/-- Modelled from the spec: `oledDrawPixel(x, y)` (`setPixel(x, y)` of the
display surface) activates one pixel. -/
def oledDrawPixel (x y : Nat) (d : Display) : Display :=
  { d with pixels := fun a b => if a = x ∧ b = y then true else d.pixels a b }

/-- Modelled from the spec: `oledDrawStringCenter(y, text)` (`drawCenteredText(row, string)`
of the display surface) draws a centered string at row `y`. -/
def oledDrawStringCenter (y : Nat) (text : String) (d : Display) : Display :=
  { d with labels := d.labels ++ [(y, text)] }

/-- Modelled from the spec: `oledRefresh()` (`flush()` of the display surface)
pushes the buffer to the screen. -/
def oledRefresh (d : Display) : Display :=
  { d with refreshes := d.refreshes + 1 }

/-- One iteration of the body of the two loops of `gamePlayingDraw`. -/
def drawCell (W H : Nat) (game : Game) (y : Nat) (d : Display) (x : Nat) : Option Display :=
  match cellRead W H game x y with
  | none => none
  | some c => if c ≠ 0 then some (oledDrawPixel x y d) else some d

/-- The inner loop `for (x = 0; x < OLED_WIDTH; x++)` of `gamePlayingDraw` at row `y`. -/
def drawRow (W H : Nat) (game : Game) (d : Display) (y : Nat) : Option Display :=
  (List.range W).foldlM (drawCell W H game y) d

/-- The function `gamePlayingDraw`. -/
def gamePlayingDraw (W H : Nat) (game : Game) (d : Display) : Option Display :=
  (List.range H).foldlM (drawRow W H game) d

/-- The function `gameOverDraw`. -/
def gameOverDraw (H : Nat) (d : Display) : Display :=
  oledDrawStringCenter (H / 2) "GAME OVER" d

/-- The function `gameDraw`; it returns `game` along with the display. -/
def gameDraw (W H : Nat) (game : Game) (d : Display) : Option (Game × Display) :=
  let d := oledClear d
  let drawn :=
    match game.state with
    | GameState.STATE_PLAYING => gamePlayingDraw W H game d
    | GameState.STATE_GAMEOVER => some (gameOverDraw H d)
  match drawn with
  | none => none
  | some d => some (game, oledRefresh d)

/-! ## The driver loop -/

/-- Finitely many iterations of the loop of `main`, one per poll of the buttons;
`gameDraw` and `delay` do not touch `game`. -/
def gameLoop (W H : Nat) : List Button → Rng → Game → Option (Game × Rng)
  | [], rng, g => some (g, rng)
  | button :: rest, rng, g =>
    match gameUpdate W H button rng g with
    | none => none
    | some (g', rng') => gameLoop W H rest rng' g'

/-- States that the driver loop of `main` reaches: the state after `gameInit`,
and every state that a tick of `gameUpdate` produces from a reachable one. -/
inductive Reachable (W H : Nat) : Game → Prop
  | init (g : Game) : Reachable W H (gameInit g)
  | tick (button : Button) (rng rng' : Rng) (g g' : Game) :
      Reachable W H g → gameUpdate W H button rng g = some (g', rng') → Reachable W H g'

/-! ## Vocabulary of the statements -/

/-- Assumptions on the display constants of `oled.h`: both are positive and at
most 32768, so that a remainder modulo either of them fits `int16_t`. -/
def OledOk (W H : Nat) : Prop := 0 < W ∧ W ≤ 32768 ∧ 0 < H ∧ H ≤ 32768

instance (W H : Nat) : Decidable (OledOk W H) := by
  unfold OledOk; infer_instance

/-- The head lies inside the grid: the negation of the condition of the first collision test. -/
def headInGrid (W H : Nat) (game : Game) : Prop :=
  0 ≤ game.x ∧ game.x < (W : Int) ∧ 0 ≤ game.y ∧ game.y < (H : Int)

instance (W H : Nat) (game : Game) : Decidable (headInGrid W H game) := by
  unfold headInGrid; infer_instance

/-- The head after the blocks `// input` and `// update head`. -/
def movedHead (button : Button) (game : Game) : Game := updateHead (inputStep button game)

/-- Offset of the cell under the moved head. -/
def headCell (W : Nat) (button : Button) (game : Game) : Nat :=
  (GAME_CELL W (movedHead button game).x (movedHead button game).y).toNat

/-- Value, before the tick, of the cell that the moved head enters. -/
def destCell (W : Nat) (button : Button) (game : Game) : Int :=
  game.field (headCell W button game)

/-- The length after the test `// ate a bug` on a destination cell holding `c`. -/
def lenAfterEating (c len : Int) : Int := if c < 0 then wrap16 (len + 1) else len

/-- The state after the block `// collisions` of a tick that does not end the
game: the head has moved and `len` has been incremented if the head entered a
negative cell. -/
def afterCollisions (W : Nat) (button : Button) (game : Game) : Game :=
  { movedHead button game with len := lenAfterEating (destCell W button game) game.len }

/-- Value of a cell after one step of decay. -/
def decayValue (c : Int) : Int := if c > 0 then c - 1 else if c < 0 then c + 1 else c

/-- Cells of `f` after the inner loop has run over the first `n` columns of row `y`. -/
def rowField (W y n : Nat) (f : Nat → Int) : Nat → Int :=
  fun i => if y * W ≤ i ∧ i < y * W + n then decayValue (f i) else f i

/-- Cells of `f` after the outer loop has run over the first `m` rows. -/
def passField (W m : Nat) (f : Nat → Int) : Nat → Int :=
  fun i => if i < m * W then decayValue (f i) else f i

/-- The state after the blocks `// input`, `// update head`, `// collisions`
and `// move` of a tick that does not end the game. -/
def afterMove (W H : Nat) (button : Button) (game : Game) : Game :=
  { movedHead button game with
    len := lenAfterEating (destCell W button game) game.len
    field := Function.update (passField W H game.field) (headCell W button game)
      (lenAfterEating (destCell W button game) game.len) }

/-- The value of the first call of `random32()` on the stream `rng`. -/
def draw1 (rng : Rng) : Nat := (random32 rng).1

/-- The value of the second call of `random32()` on the stream `rng`. -/
def draw2 (rng : Rng) : Nat := (random32 (random32 rng).2).1

/-- The value of the third call of `random32()` on the stream `rng`. -/
def draw3 (rng : Rng) : Nat := (random32 (random32 (random32 rng).2).2).1

/-- The stream left after one call of `random32()`. -/
def rest1 (rng : Rng) : Rng := (random32 rng).2

/-- The stream left after three calls of `random32()`. -/
def rest3 (rng : Rng) : Rng := (random32 (random32 (random32 rng).2).2).2

/-- Offset of the cell that the spawn writes: column `draw2 % OLED_WIDTH`, row
`draw3 % OLED_HEIGHT`. -/
def bugCell (W H : Nat) (rng : Rng) : Nat := (draw3 rng % H) * W + draw2 rng % W

/-- Offsets of the strictly positive cells of the grid. -/
def positiveCells (W H : Nat) (f : Nat → Int) : Finset Nat :=
  (Finset.range (W * H)).filter (fun i => 0 < f i)

/-- Number of strictly positive cells of the grid. -/
def positiveCount (W H : Nat) (f : Nat → Int) : Nat := (positiveCells W H f).card

/-- A run of `k` consecutive ticks of `gameUpdate`, each taken in the phase
Playing and none ending the game, during which the cell at offset `c` is left
to decay: no spawn writes `c` and, when `avoid` is set, the head does not
enter `c`. -/
inductive QuietRun (W H : Nat) (c : Nat) (avoid : Bool) : Nat → Game → Game → Prop
  | done (s : Game) : QuietRun W H c avoid 0 s s
  | tick (k : Nat) (s s1 s2 : Game) (button : Button) (rng r : Rng) :
      QuietRun W H c avoid k s s1 →
      s1.state = GameState.STATE_PLAYING →
      gameUpdate W H button rng s1 = some (s2, r) →
      s2.state = GameState.STATE_PLAYING →
      ¬ (s1.spawn_rate < draw1 rng ∧ bugCell W H rng = c) →
      (avoid = true → headCell W button s1 ≠ c) →
      QuietRun W H c avoid (k + 1) s s2

/-- Pixels after the inner loop of `gamePlayingDraw` has run over the first `n` columns of row `y`. -/
def rowPixels (W : Nat) (f : Nat → Int) (y n : Nat) (p : Nat → Nat → Bool) : Nat → Nat → Bool :=
  fun a b => p a b || decide (b = y ∧ a < n ∧ f (y * W + a) ≠ 0)

/-- Pixels after the outer loop of `gamePlayingDraw` has run over the first `m` rows. -/
def framePixels (W : Nat) (f : Nat → Int) (m : Nat) (p : Nat → Nat → Bool) : Nat → Nat → Bool :=
  fun a b => p a b || decide (b < m ∧ a < W ∧ f (b * W + a) ≠ 0)

/-- The value-range predicate: `len` is at least 16 and every cell of the grid
lies between -256 and `len`. -/
def RangeInv (W H : Nat) (game : Game) : Prop :=
  16 ≤ game.len ∧ ∀ i, i < W * H → -256 ≤ game.field i ∧ game.field i ≤ game.len

/-! ## Concrete inputs -/

/-- The object `static struct Game game` at start-up: static storage is zero-initialised. -/
def game : Game :=
  { field := fun _ => 0, len := 0, bug_lifetime := 0, delay := 0, spawn_rate := 0,
    growth_rate := 0, x := 0, y := 0, dir := GameDir.DIR_UP, state := GameState.STATE_PLAYING }

/-- A poll of the buttons with no edge. -/
def noButton : Button := { YesUp := false, NoUp := false }

/-- A poll of the buttons with both edges set. -/
def bothButtons : Button := { YesUp := true, NoUp := true }

/-- A poll of the buttons with the cancel edge only. -/
def cancelButton : Button := { YesUp := false, NoUp := true }

/-- A stream of draws that never exceeds `spawn_rate`. -/
def noSpawn : Rng := fun _ => 0

/-- A stream whose every draw is `UINT32_MAX`. -/
def allMax : Rng := fun _ => 4294967295

/-- Draws of two ticks: the first tick spawns a bug at (25,2), the second spawns nothing. -/
def bugAheadDraws : Rng :=
  fun n => if n = 0 then 4294967295 else if n = 1 then 25 else if n = 2 then 2 else 0

/-- The start state with the head turned towards the top edge. -/
def headingUp : Game := { gameInit game with dir := GameDir.DIR_UP }

/-- The start state with a trail cell of value 5 at (25,1), right below the head. -/
def trailAhead : Game :=
  { gameInit game with field := fun i => if i = 153 then 5 else 0 }

/-- The state of the decay scenario: head at (25,1) with direction DOWN and
`len` 16, cell (25,1) = 16 under the head, trail cell (25,0) = 15, every other
cell 0. -/
def twoTrail : Game :=
  { gameInit game with
    y := 1
    field := fun i => if i = 153 then 16 else if i = 25 then 15 else 0 }

/-- The state one tick after the start in which a bug was spawned at (25,2),
right below the head at (25,1). -/
def bugAhead : Game :=
  { gameInit game with
    y := 1
    field := fun i => if i = 281 then -256 else if i = 153 then 16 else 0 }

/-- The state after the head has eaten the bug of `bugAhead`. -/
def bugEaten : Game :=
  { gameInit game with
    y := 2
    len := 17
    field := fun i => if i = 281 then 17 else if i = 153 then 15 else 0 }

/-- A state in the phase GameOver: after the start the head went left to (24,0)
and then up, out of the grid; the trail cell (24,0) still holds 16. -/
def gameOverState : Game :=
  { gameInit game with
    x := 24
    y := -1
    dir := GameDir.DIR_UP
    state := GameState.STATE_GAMEOVER
    field := fun i => if i = 24 then 16 else 0 }

/-- A poll of the buttons with the confirm edge only. -/
def confirmButton : Button := { YesUp := true, NoUp := false }

/-- A state outside the game: the start state with the head moved to
`x = INT_MAX` and turned to the right. -/
def atIntMax : Game := { gameInit game with x := 2147483647, dir := GameDir.DIR_RIGHT }

/-- The state one tick after the start when the confirm edge turned the head to the left. -/
def headingLeft : Game :=
  { gameInit game with
    x := 24
    dir := GameDir.DIR_LEFT
    field := fun i => if i = 24 then 16 else 0 }

/-- Draws of two ticks: the first tick spawns a bug at (0,0), the second spawns nothing. -/
def oneSpawnDraws : Rng := fun n => if n = 0 then 4294967295 else 0

/-- Draws of a tick whose spawn writes cell (25,1). -/
def headSpawnDraws : Rng :=
  fun n => if n = 0 then 4294967295 else if n = 1 then 25 else if n = 2 then 1 else 0

/-! ## The cell accessors and the decay loops -/

/-- The offset of natural coordinates is the natural number `y * OLED_WIDTH + x`. -/
theorem GAME_CELL_nat (W x y : Nat) : GAME_CELL W x y = ((y * W + x : Nat) : Int) := by
  simp [GAME_CELL]

/-- The offset of a coordinate pair inside the grid is inside the array. -/
theorem index_lt {W H x y : Nat} (hx : x < W) (hy : y < H) : y * W + x < W * H := by
  calc y * W + x < y * W + W := by omega
    _ = (y + 1) * W := by ring
    _ ≤ H * W := Nat.mul_le_mul_right W hy
    _ = W * H := Nat.mul_comm H W

/-- A read at natural coordinates inside the grid succeeds. -/
theorem cellRead_nat {W H x y : Nat} (g : Game) (hx : x < W) (hy : y < H) :
    cellRead W H g x y = some (g.field (y * W + x)) := by
  have h := index_lt hx hy
  simp only [cellRead, GAME_CELL_nat, Int.toNat_ofNat]
  rw [if_pos]
  exact ⟨Int.ofNat_nonneg _, by exact_mod_cast h⟩

/-- A store at natural coordinates inside the grid succeeds and changes one offset. -/
theorem cellWrite_nat {W H x y : Nat} (g : Game) (v : Int) (hx : x < W) (hy : y < H) :
    cellWrite W H g x y v = some { g with field := Function.update g.field (y * W + x) v } := by
  have h := index_lt hx hy
  simp only [cellWrite, GAME_CELL_nat, Int.toNat_ofNat]
  rw [if_pos]
  exact ⟨Int.ofNat_nonneg _, by exact_mod_cast h⟩

/-- A read at integer coordinates inside the grid succeeds. -/
theorem cellRead_inGrid {W H : Nat} (g : Game) {x y : Int}
    (h : 0 ≤ x ∧ x < (W : Int) ∧ 0 ≤ y ∧ y < (H : Int)) :
    cellRead W H g x y = some (g.field (GAME_CELL W x y).toNat) := by
  obtain ⟨hx0, hx, hy0, hy⟩ := h
  obtain ⟨xn, rfl⟩ := Int.eq_ofNat_of_zero_le hx0
  obtain ⟨yn, rfl⟩ := Int.eq_ofNat_of_zero_le hy0
  rw [cellRead_nat g (by exact_mod_cast hx) (by exact_mod_cast hy), GAME_CELL_nat, Int.toNat_ofNat]

/-- A store at integer coordinates inside the grid succeeds and changes one offset. -/
theorem cellWrite_inGrid {W H : Nat} (g : Game) {x y : Int} (v : Int)
    (h : 0 ≤ x ∧ x < (W : Int) ∧ 0 ≤ y ∧ y < (H : Int)) :
    cellWrite W H g x y v =
      some { g with field := Function.update g.field (GAME_CELL W x y).toNat v } := by
  obtain ⟨hx0, hx, hy0, hy⟩ := h
  obtain ⟨xn, rfl⟩ := Int.eq_ofNat_of_zero_le hx0
  obtain ⟨yn, rfl⟩ := Int.eq_ofNat_of_zero_le hy0
  rw [cellWrite_nat g v (by exact_mod_cast hx) (by exact_mod_cast hy), GAME_CELL_nat,
    Int.toNat_ofNat]

/-- A store that succeeds changes `field` at one offset and nothing else. -/
theorem cellWrite_some {W H : Nat} {g g' : Game} {x y v : Int}
    (h : cellWrite W H g x y v = some g') :
    g' = { g with field := Function.update g.field (GAME_CELL W x y).toNat v } := by
  unfold cellWrite at h
  split_ifs at h
  exact (Option.some.inj h).symm

/-- One iteration of the decay loops replaces one cell by its decayed value. -/
theorem decayCell_eq {W H x y : Nat} (g : Game) (hx : x < W) (hy : y < H) :
    decayCell W H y g x =
      some { g with field := Function.update g.field (y * W + x) (decayValue (g.field (y * W + x))) } := by
  unfold decayCell
  rw [cellRead_nat g hx hy]
  simp only [cellWrite_nat g _ hx hy, decayValue]
  split_ifs <;> simp

/-- A loop over `n + 1` indices is the loop over `n` indices followed by the last iteration. -/
theorem foldlM_range_succ {α : Type} (f : α → Nat → Option α) (a : α) (n : Nat) :
    (List.range (n + 1)).foldlM f a = ((List.range n).foldlM f a).bind (fun b => f b n) := by
  rw [List.range_succ, List.foldlM_append]
  simp [List.foldlM_cons, List.foldlM_nil]

/-- The inner loop after `n` iterations. -/
theorem decayRow_prefix {W H y : Nat} (hy : y < H) (g : Game) :
    ∀ n, n ≤ W → (List.range n).foldlM (decayCell W H y) g =
      some { g with field := rowField W y n g.field }
  | 0, _ => by
    have : rowField W y 0 g.field = g.field := by
      funext i; simp [rowField]
    simp [this]
  | n + 1, hn => by
    rw [foldlM_range_succ, decayRow_prefix hy g n (by omega)]
    simp only [Option.some_bind]
    rw [decayCell_eq _ (by omega) hy]
    congr 2
    funext i
    simp only [rowField, Function.update_apply]
    by_cases h : i = y * W + n
    · subst h; simp
    · simp only [h, if_false]
      have : (y * W ≤ i ∧ i < y * W + (n + 1)) ↔ (y * W ≤ i ∧ i < y * W + n) := by omega
      simp only [this]

/-- The inner loop decays the cells of row `y` and no other cell. -/
theorem decayRow_eq {W H y : Nat} (hy : y < H) (g : Game) :
    decayRow W H g y = some { g with field := rowField W y W g.field } :=
  decayRow_prefix hy g W le_rfl

/-- The outer loop after `m` iterations. -/
theorem decayPass_prefix {W H : Nat} (g : Game) :
    ∀ m, m ≤ H → (List.range m).foldlM (decayRow W H) g =
      some { g with field := passField W m g.field }
  | 0, _ => by
    have : passField W 0 g.field = g.field := by
      funext i; simp [passField]
    simp [this]
  | m + 1, hm => by
    rw [foldlM_range_succ, decayPass_prefix g m (by omega)]
    simp only [Option.some_bind]
    rw [decayRow_eq (by omega)]
    congr 2
    funext i
    simp only [rowField, passField]
    have e : (m + 1) * W = m * W + W := by ring
    by_cases h1 : i < m * W
    · have h2 : ¬ (m * W ≤ i ∧ i < m * W + W) := by omega
      have h3 : i < (m + 1) * W := by omega
      simp [h1, h2, h3]
    · by_cases h2 : i < m * W + W
      · have h3 : i < (m + 1) * W := by omega
        have h4 : m * W ≤ i ∧ i < m * W + W := by omega
        simp [h1, h3, h4]
      · have h3 : ¬ i < (m + 1) * W := by omega
        have h4 : ¬ (m * W ≤ i ∧ i < m * W + W) := by omega
        simp [h1, h3, h4]

/-- The decay pass never fails and decays every cell of the array once. -/
theorem decayPass_eq (W H : Nat) (g : Game) :
    decayPass W H g = some { g with field := passField W H g.field } :=
  decayPass_prefix g H le_rfl

/-- The decay pass leaves an empty grid empty. -/
theorem passField_zero (W H : Nat) : passField W H (fun _ => 0) = fun _ => 0 := by
  funext i; simp [passField, decayValue]

/-- The block `// input` leaves `field` alone. -/
theorem inputStep_field (button : Button) (g : Game) : (inputStep button g).field = g.field := by
  unfold inputStep; split_ifs <;> rfl

/-- The block `// input` leaves `len` alone. -/
theorem inputStep_len (button : Button) (g : Game) : (inputStep button g).len = g.len := by
  unfold inputStep; split_ifs <;> rfl

/-- The block `// update head` leaves `field` alone. -/
theorem updateHead_field (g : Game) : (updateHead g).field = g.field := by
  unfold updateHead; split <;> rfl

/-- The block `// update head` leaves `len` alone. -/
theorem updateHead_len (g : Game) : (updateHead g).len = g.len := by
  unfold updateHead; split <;> rfl

/-- Moving the head leaves `field` alone. -/
theorem movedHead_field (button : Button) (g : Game) : (movedHead button g).field = g.field := by
  rw [movedHead, updateHead_field, inputStep_field]

/-- Moving the head leaves `len` alone. -/
theorem movedHead_len (button : Button) (g : Game) : (movedHead button g).len = g.len := by
  rw [movedHead, updateHead_len, inputStep_len]

/-- Moving the head leaves `state` alone. -/
theorem movedHead_state (button : Button) (g : Game) : (movedHead button g).state = g.state := by
  unfold movedHead updateHead inputStep; split <;> split_ifs <;> rfl

/-- Moving the head leaves `spawn_rate` alone. -/
theorem movedHead_spawn_rate (button : Button) (g : Game) :
    (movedHead button g).spawn_rate = g.spawn_rate := by
  unfold movedHead updateHead inputStep; split <;> split_ifs <;> rfl

/-- Moving the head leaves `bug_lifetime` alone. -/
theorem movedHead_bug_lifetime (button : Button) (g : Game) :
    (movedHead button g).bug_lifetime = g.bug_lifetime := by
  unfold movedHead updateHead inputStep; split <;> split_ifs <;> rfl

/-- Moving the head leaves `growth_rate` alone. -/
theorem movedHead_growth_rate (button : Button) (g : Game) :
    (movedHead button g).growth_rate = g.growth_rate := by
  unfold movedHead updateHead inputStep; split <;> split_ifs <;> rfl

/-- The offset of a head inside the grid is inside the array. -/
theorem headCell_lt {W H : Nat} {button : Button} {s : Game}
    (hin : headInGrid W H (movedHead button s)) : headCell W button s < W * H := by
  obtain ⟨hx0, hx, hy0, hy⟩ := hin
  obtain ⟨xn, hxn⟩ := Int.eq_ofNat_of_zero_le hx0
  obtain ⟨yn, hyn⟩ := Int.eq_ofNat_of_zero_le hy0
  unfold headCell
  rw [hxn, hyn, GAME_CELL_nat, Int.toNat_ofNat]
  rw [hxn] at hx
  rw [hyn] at hy
  exact index_lt (by exact_mod_cast hx) (by exact_mod_cast hy)

/-- A head inside the grid fails the first collision test. -/
theorem not_outside_of_inGrid {W H : Nat} {g : Game} (h : headInGrid W H g) :
    ¬ ((g.x < 0 ∨ g.x ≥ (W : Int)) ∨ (g.y < 0 ∨ g.y ≥ (H : Int))) := by
  unfold headInGrid at h; omega

/-- The conversion to `int16_t` keeps a value below 32768. -/
theorem wrap16_small {n : Nat} (h : n < 32768) : wrap16 (n : Int) = (n : Int) := by
  unfold wrap16; omega

/-- The block `// spawn a bug maybe?` when the first draw exceeds `spawn_rate`. -/
theorem spawnStep_spawn {W H : Nat} (hok : OledOk W H) (rng : Rng) (g : Game)
    (h : g.spawn_rate < draw1 rng) :
    spawnStep W H rng g =
      some ({ g with field := Function.update g.field (bugCell W H rng) (-256) },
        rest3 rng) := by
  obtain ⟨hW0, hW, hH0, hH⟩ := hok
  have hx : draw2 rng % W < W := Nat.mod_lt _ hW0
  have hy : draw3 rng % H < H := Nat.mod_lt _ hH0
  have h1 : g.spawn_rate < (random32 rng).1 := h
  have h2 : ¬ (W = 0 ∨ H = 0) := by omega
  rw [spawnStep, if_pos h1, if_neg h2]
  simp only []
  have ex : wrap16 (((random32 (random32 rng).2).1 % W : Nat) : Int)
      = ((draw2 rng % W : Nat) : Int) := by
    show wrap16 ((draw2 rng % W : Nat) : Int) = _
    exact wrap16_small (by omega)
  have ey : wrap16 (((random32 (random32 (random32 rng).2).2).1 % H : Nat) : Int)
      = ((draw3 rng % H : Nat) : Int) := by
    show wrap16 ((draw3 rng % H : Nat) : Int) = _
    exact wrap16_small (by omega)
  rw [ex, ey, cellWrite_nat g _ hx hy]
  rfl

/-- The block `// spawn a bug maybe?` when the first draw does not exceed `spawn_rate`. -/
theorem spawnStep_skip (W H : Nat) (rng : Rng) (g : Game)
    (h : ¬ g.spawn_rate < draw1 rng) :
    spawnStep W H rng g = some (g, rest1 rng) := by
  have h1 : ¬ g.spawn_rate < (random32 rng).1 := h
  rw [spawnStep, if_neg h1]
  rfl

/-- The block `// spawn a bug maybe?` changes no member other than `field`. -/
theorem spawnStep_some {W H : Nat} {rng r' : Rng} {g g' : Game}
    (h : spawnStep W H rng g = some (g', r')) :
    g'.bug_lifetime = g.bug_lifetime ∧ g'.spawn_rate = g.spawn_rate ∧ g'.state = g.state ∧
      g'.len = g.len ∧ g'.x = g.x ∧ g'.y = g.y := by
  unfold spawnStep at h
  split_ifs at h
  · simp only [] at h
    split at h
    · exact absurd h (by simp)
    · rename_i g'' hw
      have := cellWrite_some hw
      have e : g'' = g' := (Prod.mk.inj (Option.some.inj h)).1
      subst e; subst this
      exact ⟨rfl, rfl, rfl, rfl, rfl, rfl⟩
  · have e : g = g' := (Prod.mk.inj (Option.some.inj h)).1
    subst e
    exact ⟨rfl, rfl, rfl, rfl, rfl, rfl⟩

/-- A tick whose moved head is outside the grid ends the game at the first test. -/
theorem tick_outside (W H : Nat) (button : Button) (rng : Rng) (s : Game)
    (h : ¬ headInGrid W H (movedHead button s)) :
    gamePlayingUpdate W H button rng s =
      some ({ movedHead button s with state := GameState.STATE_GAMEOVER }, rng) := by
  have h' : ((movedHead button s).x < 0 ∨ (movedHead button s).x ≥ (W : Int)) ∨
      ((movedHead button s).y < 0 ∨ (movedHead button s).y ≥ (H : Int)) := by
    unfold headInGrid at h; omega
  unfold gamePlayingUpdate
  simp only [movedHead] at h'
  simp only [if_pos h']
  rfl

/-- A tick whose moved head enters a positive cell ends the game at the second test. -/
theorem tick_body (W H : Nat) (button : Button) (rng : Rng) (s : Game)
    (hin : headInGrid W H (movedHead button s)) (hc : 0 < destCell W button s) :
    gamePlayingUpdate W H button rng s =
      some ({ movedHead button s with state := GameState.STATE_GAMEOVER }, rng) := by
  have h' := not_outside_of_inGrid hin
  have hr := cellRead_inGrid (movedHead button s) hin
  rw [movedHead_field] at hr
  unfold gamePlayingUpdate
  simp only [movedHead] at h' hr
  simp only [if_neg h', hr]
  simp only [destCell, headCell, movedHead] at hc
  simp only [gt_iff_lt, if_pos hc]
  rfl

/-- A tick that does not end the game runs the block `// spawn a bug maybe?` on `afterMove`. -/
theorem tick_move (W H : Nat) (button : Button) (rng : Rng) (s : Game)
    (hin : headInGrid W H (movedHead button s)) (hc : destCell W button s ≤ 0) :
    gamePlayingUpdate W H button rng s = spawnStep W H rng (afterMove W H button s) := by
  have h' := not_outside_of_inGrid hin
  have hr := cellRead_inGrid (movedHead button s) hin
  rw [movedHead_field] at hr
  have hc' : ¬ 0 < destCell W button s := by omega
  unfold gamePlayingUpdate
  simp only [movedHead] at h' hr
  simp only [if_neg h', hr]
  simp only [destCell, headCell, movedHead] at hc'
  simp only [gt_iff_lt, if_neg hc']
  by_cases hneg : s.field (GAME_CELL W (updateHead (inputStep button s)).x
      (updateHead (inputStep button s)).y).toNat < 0
  · simp only [if_pos hneg, decayPass_eq]
    have hin2 : 0 ≤ (updateHead (inputStep button s)).x ∧
        (updateHead (inputStep button s)).x < (W : Int) ∧
        0 ≤ (updateHead (inputStep button s)).y ∧
        (updateHead (inputStep button s)).y < (H : Int) := hin
    simp only [cellWrite_inGrid _ _ hin2]
    simp only [afterMove, movedHead, destCell, headCell, lenAfterEating, if_pos hneg,
      updateHead_field, inputStep_field, updateHead_len, inputStep_len]
  · simp only [if_neg hneg, decayPass_eq]
    have hin2 : 0 ≤ (updateHead (inputStep button s)).x ∧
        (updateHead (inputStep button s)).x < (W : Int) ∧
        0 ≤ (updateHead (inputStep button s)).y ∧
        (updateHead (inputStep button s)).y < (H : Int) := hin
    simp only [cellWrite_inGrid _ _ hin2]
    simp only [afterMove, movedHead, destCell, headCell, lenAfterEating, if_neg hneg,
      updateHead_field, inputStep_field, updateHead_len, inputStep_len]

/-- The decay pass and the head write of a tick that does not end the game. -/
theorem tick_chain (W H : Nat) (button : Button) (s : Game)
    (hin : headInGrid W H (movedHead button s)) :
    decayPass W H (afterCollisions W button s) =
      some { afterCollisions W button s with field := passField W H s.field } ∧
    cellWrite W H { afterCollisions W button s with field := passField W H s.field }
      (movedHead button s).x (movedHead button s).y
      (lenAfterEating (destCell W button s) s.len) = some (afterMove W H button s) := by
  constructor
  · rw [decayPass_eq]
    show some { afterCollisions W button s with
      field := passField W H (movedHead button s).field } = _
    rw [movedHead_field]
  · rw [cellWrite_inGrid _ _ hin]
    rfl

/-- A tick that does not end the game and whose first draw exceeds `spawn_rate`. -/
theorem tick_spawn {W H : Nat} (hok : OledOk W H) (button : Button) (rng : Rng) (s : Game)
    (hin : headInGrid W H (movedHead button s)) (hc : destCell W button s ≤ 0)
    (hr : s.spawn_rate < draw1 rng) :
    gamePlayingUpdate W H button rng s =
      some ({ afterMove W H button s with
          field := Function.update (afterMove W H button s).field (bugCell W H rng) (-256) },
        rest3 rng) := by
  rw [tick_move W H button rng s hin hc]
  exact spawnStep_spawn hok rng _ (by
    show (movedHead button s).spawn_rate < _
    rw [movedHead_spawn_rate]; exact hr)

/-- A tick that does not end the game and whose first draw does not exceed `spawn_rate`. -/
theorem tick_skip (W H : Nat) (button : Button) (rng : Rng) (s : Game)
    (hin : headInGrid W H (movedHead button s)) (hc : destCell W button s ≤ 0)
    (hr : ¬ s.spawn_rate < draw1 rng) :
    gamePlayingUpdate W H button rng s =
      some (afterMove W H button s, rest1 rng) := by
  rw [tick_move W H button rng s hin hc]
  exact spawnStep_skip W H rng _ (by
    show ¬ (movedHead button s).spawn_rate < _
    rw [movedHead_spawn_rate]; exact hr)

/-- The cells after the head write. -/
theorem afterMove_field (W H : Nat) (button : Button) (s : Game) (i : Nat) :
    (afterMove W H button s).field i =
      if i = headCell W button s then lenAfterEating (destCell W button s) s.len
      else passField W H s.field i := by
  show Function.update (passField W H s.field) (headCell W button s) _ i = _
  rw [Function.update_apply]

/-- The length after a tick that does not end the game. -/
theorem tick_len {W H : Nat} {button : Button} {rng r : Rng} {s g : Game}
    (hin : headInGrid W H (movedHead button s)) (hc : destCell W button s ≤ 0)
    (h : gamePlayingUpdate W H button rng s = some (g, r)) :
    g.len = lenAfterEating (destCell W button s) s.len ∧ g.state = s.state ∧
      g.growth_rate = s.growth_rate := by
  rw [tick_move W H button rng s hin hc] at h
  obtain ⟨-, -, h3, h4, -⟩ := spawnStep_some h
  refine ⟨h4, h3.trans (movedHead_state button s), ?_⟩
  unfold spawnStep at h
  split_ifs at h
  · simp only [] at h
    split at h
    · exact absurd h (by simp)
    · rename_i g'' hw
      have := cellWrite_some hw
      have e : g'' = g := (Prod.mk.inj (Option.some.inj h)).1
      subst e; subst this
      exact movedHead_growth_rate button s
  · have e := (Prod.mk.inj (Option.some.inj h)).1
    subst e
    exact movedHead_growth_rate button s

/-- The first tick after `gameInit`, with no button edge: the facts that do not depend on the draws. -/
theorem first_tick_facts {W H : Nat} (hW : 25 < W) (hH : 1 < H) (s : Game) :
    headInGrid W H (movedHead noButton (gameInit s)) ∧
    headCell W noButton (gameInit s) = 1 * W + 25 ∧
    destCell W noButton (gameInit s) = 0 ∧
    (movedHead noButton (gameInit s)).x = 25 ∧ (movedHead noButton (gameInit s)).y = 1 := by
  have hx : (movedHead noButton (gameInit s)).x = 25 := rfl
  have hy : (movedHead noButton (gameInit s)).y = 1 :=
    show wrap32 ((0 : Int) + 1) = 1 by decide
  have hcell : headCell W noButton (gameInit s) = 1 * W + 25 := by
    unfold headCell
    rw [hx, hy]
    have := GAME_CELL_nat W 25 1
    simp only [Nat.cast_ofNat, Nat.cast_one] at this
    rw [this, Int.toNat_ofNat]
  refine ⟨?_, hcell, ?_, hx, hy⟩
  · unfold headInGrid
    rw [hx, hy]
    omega
  · unfold destCell
    rfl

/-! ## Reachable states -/

/-- The dispatch of `gameUpdate` in the phase Playing. -/
theorem gameUpdate_playing (W H : Nat) (button : Button) (rng : Rng) (s : Game)
    (hs : s.state = GameState.STATE_PLAYING) :
    gameUpdate W H button rng s = gamePlayingUpdate W H button rng s := by
  unfold gameUpdate; rw [hs]

/-- The dispatch of `gameUpdate` in the phase GameOver. -/
theorem gameUpdate_gameover (W H : Nat) (button : Button) (rng : Rng) (s : Game)
    (hs : s.state = GameState.STATE_GAMEOVER) :
    gameUpdate W H button rng s = some (gameOverUpdate button s, rng) := by
  unfold gameUpdate; rw [hs]

/-- Every tick leaves `bug_lifetime` and `spawn_rate` as they were. -/
theorem gamePlayingUpdate_rates {W H : Nat} {button : Button} {rng r' : Rng} {s g' : Game}
    (h : gamePlayingUpdate W H button rng s = some (g', r')) :
    g'.bug_lifetime = s.bug_lifetime ∧ g'.spawn_rate = s.spawn_rate := by
  by_cases hin : headInGrid W H (movedHead button s)
  · by_cases hc : 0 < destCell W button s
    · rw [tick_body W H button rng s hin hc] at h
      have e := (Prod.mk.inj (Option.some.inj h)).1
      subst e
      exact ⟨movedHead_bug_lifetime button s, movedHead_spawn_rate button s⟩
    · rw [tick_move W H button rng s hin (by omega)] at h
      obtain ⟨h1, h2, -⟩ := spawnStep_some h
      exact ⟨h1.trans (movedHead_bug_lifetime button s),
        h2.trans (movedHead_spawn_rate button s)⟩
  · rw [tick_outside W H button rng s hin] at h
    have e := (Prod.mk.inj (Option.some.inj h)).1
    subst e
    exact ⟨movedHead_bug_lifetime button s, movedHead_spawn_rate button s⟩

/-- The two rates stored by `gameInit`. -/
theorem gameInit_rates (g : Game) :
    (gameInit g).bug_lifetime = -256 ∧ (gameInit g).spawn_rate = 4160749568 :=
  ⟨show Int.tdiv INT16_MIN 128 = -256 by decide,
    show UINT32_MAX - (UINT32_MAX / 32) = 4160749568 by decide⟩

/-- In every reachable state the two rates hold the values that `gameInit` stores. -/
theorem reachable_rates {W H : Nat} {s : Game} (h : Reachable W H s) :
    s.bug_lifetime = -256 ∧ s.spawn_rate = 4160749568 := by
  induction h with
  | init g => exact gameInit_rates g
  | tick button rng rng' g g' _ hstep ih =>
    cases hst : g.state with
    | STATE_PLAYING =>
      rw [gameUpdate_playing W H button rng g hst] at hstep
      obtain ⟨h1, h2⟩ := gamePlayingUpdate_rates hstep
      exact ⟨h1.trans ih.1, h2.trans ih.2⟩
    | STATE_GAMEOVER =>
      rw [gameUpdate_gameover W H button rng g hst] at hstep
      have e := (Prod.mk.inj (Option.some.inj hstep)).1
      subst e
      unfold gameOverUpdate
      split_ifs
      · exact gameInit_rates g
      · exact ih

/-! ## Initialisation -/

/-- C1: `gameInit` yields the same canonical state from every prior state, so it
is idempotent; in the result every cell is 0, the phase is Playing, the head is
(25,0), the direction is DOWN, `len` is 16, `growth_rate` is 3, `bug_lifetime`
is -256, `spawn_rate` is 4160749568 and `delay` is 1000000. -/
theorem gameInit_canonical (s s' : Game) :
    gameInit s = gameInit s' ∧ gameInit (gameInit s) = gameInit s ∧
    (∀ i, (gameInit s).field i = 0) ∧
    (gameInit s).state = GameState.STATE_PLAYING ∧
    (gameInit s).x = 25 ∧ (gameInit s).y = 0 ∧
    (gameInit s).dir = GameDir.DIR_DOWN ∧
    (gameInit s).len = 16 ∧
    (gameInit s).growth_rate = 3 ∧
    (gameInit s).bug_lifetime = -256 ∧
    (gameInit s).spawn_rate = 4160749568 ∧
    (gameInit s).delay = 1000000 :=
  ⟨rfl, rfl, fun _ => rfl, rfl, rfl, rfl, rfl, rfl, rfl,
    show Int.tdiv INT16_MIN 128 = -256 by decide,
    show UINT32_MAX - (UINT32_MAX / 32) = 4160749568 by decide, rfl⟩

/-! ## Collisions -/

/-- C2: if the head after the move has `x < 0`, `x >= OLED_WIDTH`, `y < 0` or
`y >= OLED_HEIGHT`, then `gamePlayingUpdate` (from any state, in particular any
Playing one, and for any buttons) returns with the phase GameOver, with every
cell and `len` as before the tick and with the stream of random draws untouched. -/
theorem boundary_ends_game (W H : Nat) (button : Button) (rng : Rng) (s : Game)
    (hout : (movedHead button s).x < 0 ∨ (movedHead button s).x ≥ (W : Int) ∨
      (movedHead button s).y < 0 ∨ (movedHead button s).y ≥ (H : Int)) :
    ∃ g, gamePlayingUpdate W H button rng s = some (g, rng) ∧
      g.state = GameState.STATE_GAMEOVER ∧ g.field = s.field ∧ g.len = s.len := by
  have h : ¬ headInGrid W H (movedHead button s) := by
    unfold headInGrid; omega
  exact ⟨_, tick_outside W H button rng s h, rfl, movedHead_field button s,
    movedHead_len button s⟩

/-- Witness of C2: on a 128x64 display, the head at (25,0) moving up leaves the grid. -/
theorem boundary_ends_game_witness :
    (movedHead noButton headingUp).y < 0 ∧
    ∃ g, gamePlayingUpdate 128 64 noButton noSpawn headingUp = some (g, noSpawn) ∧
      g.state = GameState.STATE_GAMEOVER ∧ g.field = headingUp.field ∧
      g.len = headingUp.len :=
  ⟨by decide, boundary_ends_game 128 64 noButton noSpawn headingUp
    (Or.inr (Or.inr (Or.inl (by decide))))⟩

/-- C3: if the moved head is inside the grid and the destination cell is
strictly positive, `gamePlayingUpdate` returns with the phase GameOver and with
every cell and `len` as before the tick (and no random draw taken). -/
theorem body_collision_ends_game (W H : Nat) (button : Button) (rng : Rng) (s : Game)
    (hin : headInGrid W H (movedHead button s)) (hpos : 0 < destCell W button s) :
    ∃ g, gamePlayingUpdate W H button rng s = some (g, rng) ∧
      g.state = GameState.STATE_GAMEOVER ∧ g.field = s.field ∧ g.len = s.len :=
  ⟨_, tick_body W H button rng s hin hpos, rfl, movedHead_field button s,
    movedHead_len button s⟩

/-- Witness of C3: on a 128x64 display, the head at (25,0) moving down into a trail cell. -/
theorem body_collision_ends_game_witness :
    headInGrid 128 64 (movedHead noButton trailAhead) ∧
    0 < destCell 128 noButton trailAhead ∧
    ∃ g, gamePlayingUpdate 128 64 noButton noSpawn trailAhead = some (g, noSpawn) ∧
      g.state = GameState.STATE_GAMEOVER ∧ g.field = trailAhead.field ∧
      g.len = trailAhead.len :=
  ⟨by decide, by decide,
    body_collision_ends_game 128 64 noButton noSpawn trailAhead (by decide) (by decide)⟩

/-! ## Eating a bug -/

/-- C4 (evaluation of the code): from the start state on a 128x64 display, a
first tick spawns a bug at (25,2), right below the moved head; the second tick
moves the head onto it. The game goes on, but `len` goes from 16 to 17, not to
16 + `growth_rate` = 19. -/
theorem eating_grows_by_one :
    gameUpdate 128 64 noButton bugAheadDraws (gameInit game)
      = some (bugAhead, rest3 bugAheadDraws) ∧
    headInGrid 128 64 (movedHead noButton bugAhead) ∧ destCell 128 noButton bugAhead < 0 ∧
    bugAhead.state = GameState.STATE_PLAYING ∧ bugAhead.len = 16 ∧
    bugAhead.growth_rate = 3 ∧
    gameUpdate 128 64 noButton (rest3 bugAheadDraws) bugAhead
      = some (bugEaten, rest1 (rest3 bugAheadDraws)) ∧
    bugEaten.state = GameState.STATE_PLAYING ∧ bugEaten.len = 17 ∧
    bugEaten.len ≠ bugAhead.len + bugAhead.growth_rate := by
  have hok : OledOk 128 64 := by decide
  refine ⟨?_, by decide, by decide, rfl, rfl, rfl, ?_, rfl, rfl, by decide⟩
  · rw [gameUpdate_playing 128 64 noButton bugAheadDraws (gameInit game) rfl,
      tick_spawn hok noButton bugAheadDraws (gameInit game) (by decide) (by decide)
        (by decide)]
    have hf : Function.update (afterMove 128 64 noButton (gameInit game)).field
        (bugCell 128 64 bugAheadDraws) (-256) = bugAhead.field := by
      funext i
      have e1 : bugCell 128 64 bugAheadDraws = 281 := by decide
      have e2 : headCell 128 noButton (gameInit game) = 153 := by decide
      have e3 : lenAfterEating (destCell 128 noButton (gameInit game)) (gameInit game).len
          = 16 := by decide
      have e4 : (gameInit game).field = fun _ => 0 := rfl
      simp only [afterMove, e1, e2, e3, e4, passField_zero, Function.update_apply, bugAhead]
    rw [hf]
    rfl
  · rw [gameUpdate_playing 128 64 noButton _ bugAhead rfl,
      tick_skip 128 64 noButton _ bugAhead (by decide) (by decide) (by decide)]
    have hf : (afterMove 128 64 noButton bugAhead).field = bugEaten.field := by
      funext i
      have e2 : headCell 128 noButton bugAhead = 281 := by decide
      have e3 : lenAfterEating (destCell 128 noButton bugAhead) bugAhead.len = 17 := by
        decide
      show Function.update (passField 128 64 bugAhead.field) (headCell 128 noButton bugAhead)
        (lenAfterEating (destCell 128 noButton bugAhead) bugAhead.len) i = _
      rw [e2, e3, Function.update_apply]
      simp only [bugAhead, bugEaten, passField, decayValue]
      by_cases h1 : i = 281
      · simp [h1]
      · by_cases h2 : i = 153
        · simp [h2]
        · simp [h1, h2]
    have hg : afterMove 128 64 noButton bugAhead = bugEaten := by
      have : afterMove 128 64 noButton bugAhead
          = { afterMove 128 64 noButton bugAhead with
              field := (afterMove 128 64 noButton bugAhead).field } := rfl
      rw [this, hf]
      rfl
    rw [hg]

/-! ## The first tick -/

/-- C5 (counterexample): on a 128x64 display, with every draw equal to
`UINT32_MAX`, the first draw exceeds `spawn_rate`, and the tick from the start
state does not leave every cell other than (25,1) at 0: a bug is spawned. -/
theorem scenario_first_tick_counterexample :
    (gameInit game).spawn_rate < draw1 allMax ∧
    ¬ ∃ g r, gamePlayingUpdate 128 64 noButton allMax (gameInit game) = some (g, r) ∧
      g.x = 25 ∧ g.y = 1 ∧ g.field (1 * 128 + 25) = 16 ∧
      (∀ x y : Nat, x < 128 → y < 64 → (x, y) ≠ (25, 1) → g.field (y * 128 + x) = 0) ∧
      g.state = GameState.STATE_PLAYING := by
  refine ⟨by decide, ?_⟩
  rintro ⟨g, r, hrun, -, -, -, hzero, -⟩
  rw [tick_spawn (by decide) noButton allMax (gameInit game) (by decide) (by decide)
    (by decide)] at hrun
  have e := (Prod.mk.inj (Option.some.inj hrun)).1
  subst e
  have h := hzero 127 63 (by decide) (by decide) (by decide)
  have hb : bugCell 128 64 allMax = 63 * 128 + 127 := by decide
  simp only [hb, Function.update_same] at h
  exact absurd h (by decide)

/-- C5 (amended): from the state after `gameInit`, one tick with no button edge
ends with the head at (25,1) and the phase Playing. If the first draw does not
exceed `spawn_rate`, cell (25,1) is 16 and every other cell is 0. If it exceeds
`spawn_rate`, the cell at column `draw2 % OLED_WIDTH`, row `draw3 % OLED_HEIGHT`
is -256, cell (25,1) is 16 unless it is that cell, and every other cell is 0. -/
theorem scenario_first_tick (W H : Nat) (rng : Rng) (s : Game) (hok : OledOk W H)
    (hW : 25 < W) (hH : 1 < H) :
    ∃ g r, gamePlayingUpdate W H noButton rng (gameInit s) = some (g, r) ∧
      g.x = 25 ∧ g.y = 1 ∧ g.state = GameState.STATE_PLAYING ∧
      (¬ (gameInit s).spawn_rate < draw1 rng →
        g.field (1 * W + 25) = 16 ∧ ∀ i, i ≠ 1 * W + 25 → g.field i = 0) ∧
      ((gameInit s).spawn_rate < draw1 rng →
        g.field ((draw3 rng % H) * W + draw2 rng % W) = -256 ∧
        ((draw3 rng % H) * W + draw2 rng % W ≠ 1 * W + 25 → g.field (1 * W + 25) = 16) ∧
        ∀ i, i ≠ 1 * W + 25 → i ≠ (draw3 rng % H) * W + draw2 rng % W → g.field i = 0) := by
  obtain ⟨hin, hcell, hdest, hx, hy⟩ := first_tick_facts hW hH s
  have hc : destCell W noButton (gameInit s) ≤ 0 := by rw [hdest]
  have hlen : lenAfterEating (destCell W noButton (gameInit s)) (gameInit s).len = 16 := by
    rw [hdest]; rfl
  have hfield : ∀ i, (afterMove W H noButton (gameInit s)).field i
      = if i = 1 * W + 25 then 16 else 0 := by
    intro i
    rw [afterMove_field, hcell, hlen]
    have : passField W H (gameInit s).field = fun _ => 0 := passField_zero W H
    rw [this]
  by_cases hr : (gameInit s).spawn_rate < draw1 rng
  · refine ⟨_, _, tick_spawn hok noButton rng (gameInit s) hin hc hr, hx, hy, rfl,
      fun h => absurd hr h, fun _ => ⟨?_, ?_, ?_⟩⟩
    · show Function.update _ (bugCell W H rng) (-256) ((draw3 rng % H) * W + draw2 rng % W) = _
      exact Function.update_same _ _ _
    · intro hne
      show Function.update _ ((draw3 rng % H) * W + draw2 rng % W) (-256) (1 * W + 25) = _
      rw [Function.update_noteq (Ne.symm hne), hfield, if_pos rfl]
    · intro i h1 h2
      show Function.update _ ((draw3 rng % H) * W + draw2 rng % W) (-256) i = _
      rw [Function.update_noteq h2, hfield, if_neg h1]
  · refine ⟨_, _, tick_skip W H noButton rng (gameInit s) hin hc hr, hx, hy, rfl,
      fun _ => ⟨?_, ?_⟩, fun h => absurd h hr⟩
    · rw [hfield, if_pos rfl]
    · intro i h1
      rw [hfield, if_neg h1]

/-- Witness of C5 (amended): the 128x64 display, the start state, no spawn. -/
theorem scenario_first_tick_witness :
    OledOk 128 64 ∧ 25 < 128 ∧ 1 < 64 ∧
    ∃ g r, gamePlayingUpdate 128 64 noButton noSpawn (gameInit game) = some (g, r) ∧
      g.x = 25 ∧ g.y = 1 ∧ g.state = GameState.STATE_PLAYING ∧
      (¬ (gameInit game).spawn_rate < draw1 noSpawn →
        g.field (1 * 128 + 25) = 16 ∧ ∀ i, i ≠ 1 * 128 + 25 → g.field i = 0) ∧
      ((gameInit game).spawn_rate < draw1 noSpawn →
        g.field ((draw3 noSpawn % 64) * 128 + draw2 noSpawn % 128) = -256 ∧
        ((draw3 noSpawn % 64) * 128 + draw2 noSpawn % 128 ≠ 1 * 128 + 25 →
          g.field (1 * 128 + 25) = 16) ∧
        ∀ i, i ≠ 1 * 128 + 25 → i ≠ (draw3 noSpawn % 64) * 128 + draw2 noSpawn % 128 →
          g.field i = 0) :=
  ⟨by decide, by decide, by decide,
    scenario_first_tick 128 64 noSpawn game (by decide) (by decide) (by decide)⟩

/-! ## Head write, decay pass and spawn -/

/-- C7: in a tick that does not end the game, every cell of the grid other than
the cell under the new head and the cell written by a spawn holds, after the
tick, its old value moved one step towards zero: `old - 1` when `old > 0`,
`old + 1` when `old < 0`, and 0 when `old = 0`. -/
theorem decay_pass (W H : Nat) (button : Button) (rng : Rng) (s : Game) (hok : OledOk W H)
    (hin : headInGrid W H (movedHead button s)) (hc : destCell W button s ≤ 0) :
    ∃ g r, gamePlayingUpdate W H button rng s = some (g, r) ∧
      ∀ x y : Nat, x < W → y < H → y * W + x ≠ (GAME_CELL W g.x g.y).toNat →
        ¬ (s.spawn_rate < draw1 rng ∧ y * W + x = (draw3 rng % H) * W + draw2 rng % W) →
        (0 < s.field (y * W + x) → g.field (y * W + x) = s.field (y * W + x) - 1) ∧
        (s.field (y * W + x) < 0 → g.field (y * W + x) = s.field (y * W + x) + 1) ∧
        (s.field (y * W + x) = 0 → g.field (y * W + x) = 0) := by
  have hdecay : ∀ x y : Nat, x < W → y < H → y * W + x ≠ headCell W button s →
      (afterMove W H button s).field (y * W + x) = decayValue (s.field (y * W + x)) := by
    intro x y hx hy hne
    rw [afterMove_field, if_neg hne]
    unfold passField
    rw [if_pos (by rw [Nat.mul_comm H W]; exact index_lt hx hy)]
  have hval : ∀ c v : Int, v = decayValue c →
      (0 < c → v = c - 1) ∧ (c < 0 → v = c + 1) ∧ (c = 0 → v = 0) := by
    intro c v hv
    unfold decayValue at hv
    split_ifs at hv <;> omega
  by_cases hr : s.spawn_rate < draw1 rng
  · refine ⟨_, _, tick_spawn hok button rng s hin hc hr, ?_⟩
    intro x y hx hy hne hnb
    have hnb' : y * W + x ≠ bugCell W H rng := fun e => hnb ⟨hr, e⟩
    apply hval
    show Function.update _ (bugCell W H rng) (-256) (y * W + x) = _
    rw [Function.update_noteq hnb']
    exact hdecay x y hx hy hne
  · refine ⟨_, _, tick_skip W H button rng s hin hc hr, ?_⟩
    intro x y hx hy hne _
    apply hval
    exact hdecay x y hx hy hne

/-- Witness of C7: on a 128x64 display, with (25,1) = 16 under the head,
(25,0) = 15, direction DOWN, no button edge and no spawn, the tick gives
(25,1) = 15, (25,0) = 14 and (25,2) = 16. -/
theorem decay_pass_witness :
    OledOk 128 64 ∧ headInGrid 128 64 (movedHead noButton twoTrail) ∧
    destCell 128 noButton twoTrail ≤ 0 ∧
    ∃ g r, gamePlayingUpdate 128 64 noButton noSpawn twoTrail = some (g, r) ∧
      g.field (1 * 128 + 25) = 15 ∧ g.field (0 * 128 + 25) = 14 ∧
      g.field (2 * 128 + 25) = 16 := by
  refine ⟨by decide, by decide, by decide, ?_⟩
  obtain ⟨g, r, hrun, hcells⟩ :=
    decay_pass 128 64 noButton noSpawn twoTrail (by decide) (by decide) (by decide)
  have hg : gamePlayingUpdate 128 64 noButton noSpawn twoTrail
      = some (afterMove 128 64 noButton twoTrail, rest1 noSpawn) :=
    tick_skip 128 64 noButton noSpawn twoTrail (by decide) (by decide) (by decide)
  have e : afterMove 128 64 noButton twoTrail = g :=
    (Prod.mk.inj (Option.some.inj (hg.symm.trans hrun))).1
  subst e
  refine ⟨_, r, hrun, ?_, ?_, ?_⟩
  · exact (hcells 25 1 (by decide) (by decide) (by decide) (by decide)).1 (by decide)
  · exact (hcells 25 0 (by decide) (by decide) (by decide) (by decide)).1 (by decide)
  · rw [afterMove_field, if_pos (by decide)]
    decide

/-- C8: in a state reachable from `gameInit`, for a tick that does not end the
game, with `hw` the state after the head write: if the first draw exceeds
`spawn_rate`, the spawn leaves `game.bug_lifetime` = -256 in the cell at column
`draw2 % OLED_WIDTH`, row `draw3 % OLED_HEIGHT`, whatever the cell held, leaves
every other cell as in `hw`, and three draws are taken; otherwise the tick ends
in `hw` and one draw is taken. -/
theorem spawn_writes_bug (W H : Nat) (button : Button) (rng : Rng) (s : Game)
    (hok : OledOk W H) (hreach : Reachable W H s)
    (hin : headInGrid W H (movedHead button s)) (hc : destCell W button s ≤ 0) :
    ∃ mid hw g r,
      decayPass W H (afterCollisions W button s) = some mid ∧
      cellWrite W H mid mid.x mid.y mid.len = some hw ∧
      spawnStep W H rng hw = some (g, r) ∧
      gamePlayingUpdate W H button rng s = some (g, r) ∧
      (s.spawn_rate < draw1 rng →
        g.field ((draw3 rng % H) * W + draw2 rng % W) = s.bug_lifetime ∧
        s.bug_lifetime = -256 ∧
        (∀ i, i ≠ (draw3 rng % H) * W + draw2 rng % W → g.field i = hw.field i) ∧
        r = rest3 rng) ∧
      (¬ s.spawn_rate < draw1 rng → g = hw ∧ r = rest1 rng) := by
  obtain ⟨h1, h2⟩ := tick_chain W H button s hin
  obtain ⟨hbug, -⟩ := reachable_rates hreach
  by_cases hr : s.spawn_rate < draw1 rng
  · have hrun := tick_spawn hok button rng s hin hc hr
    refine ⟨_, _, _, _, h1, h2, ?_, hrun, fun _ => ⟨?_, hbug, ?_, rfl⟩, fun h => absurd hr h⟩
    · rw [← hrun, tick_move W H button rng s hin hc]
    · rw [hbug]
      show Function.update _ ((draw3 rng % H) * W + draw2 rng % W) (-256) _ = _
      exact Function.update_same _ _ _
    · intro i hi
      show Function.update _ ((draw3 rng % H) * W + draw2 rng % W) (-256) i = _
      exact Function.update_noteq hi _ _
  · have hrun := tick_skip W H button rng s hin hc hr
    refine ⟨_, _, _, _, h1, h2, ?_, hrun, fun h => absurd h hr, fun _ => ⟨rfl, rfl⟩⟩
    rw [← hrun, tick_move W H button rng s hin hc]

/-- Witness of C8: the first tick on a 128x64 display with the draws
`UINT32_MAX`, 25 and 2. -/
theorem spawn_writes_bug_witness :
    OledOk 128 64 ∧ Reachable 128 64 (gameInit game) ∧
    headInGrid 128 64 (movedHead noButton (gameInit game)) ∧
    destCell 128 noButton (gameInit game) ≤ 0 ∧
    ∃ mid hw g r,
      decayPass 128 64 (afterCollisions 128 noButton (gameInit game)) = some mid ∧
      cellWrite 128 64 mid mid.x mid.y mid.len = some hw ∧
      spawnStep 128 64 bugAheadDraws hw = some (g, r) ∧
      gamePlayingUpdate 128 64 noButton bugAheadDraws (gameInit game) = some (g, r) ∧
      ((gameInit game).spawn_rate < draw1 bugAheadDraws →
        g.field ((draw3 bugAheadDraws % 64) * 128 + draw2 bugAheadDraws % 128)
          = (gameInit game).bug_lifetime ∧
        (gameInit game).bug_lifetime = -256 ∧
        (∀ i, i ≠ (draw3 bugAheadDraws % 64) * 128 + draw2 bugAheadDraws % 128 →
          g.field i = hw.field i) ∧
        r = rest3 bugAheadDraws) ∧
      (¬ (gameInit game).spawn_rate < draw1 bugAheadDraws → g = hw ∧ r = rest1 bugAheadDraws) :=
  ⟨by decide, Reachable.init game, by decide, by decide,
    spawn_writes_bug 128 64 noButton bugAheadDraws (gameInit game) (by decide)
      (Reachable.init game) (by decide) (by decide)⟩

/-! ## The phase GameOver -/

/-- C9: in the phase GameOver, a tick of `gameUpdate` with the confirm edge
`button.YesUp` set returns exactly the `gameInit` state, whatever the cancel
edge: every cell is 0, the phase is Playing, the head is (25,0), the direction
is DOWN and `len` is 16; no random draw is taken. -/
theorem restart_on_confirm (W H : Nat) (button : Button) (rng : Rng) (s : Game)
    (hs : s.state = GameState.STATE_GAMEOVER) (hyes : button.YesUp = true) :
    gameUpdate W H button rng s = some (gameInit s, rng) ∧
    (∀ i, (gameInit s).field i = 0) ∧
    (gameInit s).state = GameState.STATE_PLAYING ∧
    (gameInit s).x = 25 ∧ (gameInit s).y = 0 ∧
    (gameInit s).dir = GameDir.DIR_DOWN ∧ (gameInit s).len = 16 := by
  refine ⟨?_, fun _ => rfl, rfl, rfl, rfl, rfl, rfl⟩
  rw [gameUpdate_gameover W H button rng s hs]
  unfold gameOverUpdate
  rw [if_pos hyes]

/-- Witness of C9: both edges set in a GameOver state. -/
theorem restart_on_confirm_witness :
    gameOverState.state = GameState.STATE_GAMEOVER ∧ bothButtons.YesUp = true ∧
    gameUpdate 128 64 bothButtons noSpawn gameOverState
      = some (gameInit gameOverState, noSpawn) ∧
    (∀ i, (gameInit gameOverState).field i = 0) ∧
    (gameInit gameOverState).state = GameState.STATE_PLAYING ∧
    (gameInit gameOverState).x = 25 ∧ (gameInit gameOverState).y = 0 ∧
    (gameInit gameOverState).dir = GameDir.DIR_DOWN ∧ (gameInit gameOverState).len = 16 :=
  ⟨rfl, rfl, restart_on_confirm 128 64 bothButtons noSpawn gameOverState rfl rfl⟩

/-- C10: in the phase GameOver, a tick of `gameUpdate` without the confirm edge
returns the state it was given, whole, and takes no random draw, whatever the
cancel edge; hence any number of such ticks leaves the state, and so the phase
GameOver, as it was. -/
theorem gameover_inert (W H : Nat) (rng : Rng) (s : Game)
    (hs : s.state = GameState.STATE_GAMEOVER) :
    (∀ button : Button, button.YesUp = false →
      gameUpdate W H button rng s = some (s, rng)) ∧
    (∀ buttons : List Button, (∀ button ∈ buttons, button.YesUp = false) →
      gameLoop W H buttons rng s = some (s, rng)) := by
  have hone : ∀ button : Button, button.YesUp = false →
      gameUpdate W H button rng s = some (s, rng) := by
    intro button hno
    rw [gameUpdate_gameover W H button rng s hs]
    unfold gameOverUpdate
    rw [hno]
    rfl
  refine ⟨hone, ?_⟩
  intro buttons
  induction buttons with
  | nil => intro _; rfl
  | cons b rest ih =>
    intro hall
    unfold gameLoop
    rw [hone b (hall b (List.mem_cons_self b rest))]
    exact ih (fun b' hb' => hall b' (List.mem_cons_of_mem b hb'))

/-- Witness of C10: the cancel edge alone, once and then in two ticks, in a GameOver state. -/
theorem gameover_inert_witness :
    gameOverState.state = GameState.STATE_GAMEOVER ∧
    gameUpdate 128 64 cancelButton noSpawn gameOverState = some (gameOverState, noSpawn) ∧
    gameLoop 128 64 [cancelButton, noButton] noSpawn gameOverState
      = some (gameOverState, noSpawn) :=
  ⟨rfl, (gameover_inert 128 64 noSpawn gameOverState rfl).1 cancelButton rfl,
    (gameover_inert 128 64 noSpawn gameOverState rfl).2 [cancelButton, noButton]
      (by decide)⟩

/-! ## Every tick returns -/

/-- The three ways a tick of `gamePlayingUpdate` ends: at a collision test, after
a spawn, or after no spawn. -/
theorem tick_cases {W H : Nat} (hok : OledOk W H) (button : Button) (rng : Rng) (s : Game) :
    ((¬ headInGrid W H (movedHead button s) ∨
        (headInGrid W H (movedHead button s) ∧ 0 < destCell W button s)) ∧
      gamePlayingUpdate W H button rng s =
        some ({ movedHead button s with state := GameState.STATE_GAMEOVER }, rng)) ∨
    (headInGrid W H (movedHead button s) ∧ destCell W button s ≤ 0 ∧
      s.spawn_rate < draw1 rng ∧
      gamePlayingUpdate W H button rng s =
        some ({ afterMove W H button s with
            field := Function.update (afterMove W H button s).field (bugCell W H rng) (-256) },
          rest3 rng)) ∨
    (headInGrid W H (movedHead button s) ∧ destCell W button s ≤ 0 ∧
      ¬ s.spawn_rate < draw1 rng ∧
      gamePlayingUpdate W H button rng s = some (afterMove W H button s, rest1 rng)) := by
  by_cases hin : headInGrid W H (movedHead button s)
  · by_cases hc : 0 < destCell W button s
    · exact Or.inl ⟨Or.inr ⟨hin, hc⟩, tick_body W H button rng s hin hc⟩
    · have hc' : destCell W button s ≤ 0 := by omega
      by_cases hr : s.spawn_rate < draw1 rng
      · exact Or.inr (Or.inl ⟨hin, hc', hr, tick_spawn hok button rng s hin hc' hr⟩)
      · exact Or.inr (Or.inr ⟨hin, hc', hr, tick_skip W H button rng s hin hc' hr⟩)
  · exact Or.inl ⟨Or.inl hin, tick_outside W H button rng s hin⟩

/-- Moving the head leaves the direction chosen by the block `// input`. -/
theorem movedHead_dir (button : Button) (g : Game) :
    (movedHead button g).dir = (inputStep button g).dir := by
  unfold movedHead updateHead; split <;> rfl

/-- The members of the state that a tick returns, apart from `field` and `len`. -/
theorem tick_members {W H : Nat} (hok : OledOk W H) (button : Button) (rng : Rng) (s : Game) :
    ∃ g r, gamePlayingUpdate W H button rng s = some (g, r) ∧
      g.x = (movedHead button s).x ∧ g.y = (movedHead button s).y ∧
      g.dir = (inputStep button s).dir ∧
      (g.state = GameState.STATE_GAMEOVER ∨ g.state = s.state) := by
  rcases tick_cases hok button rng s with ⟨-, h⟩ | ⟨-, -, -, h⟩ | ⟨-, -, -, h⟩
  · exact ⟨_, _, h, rfl, rfl, movedHead_dir button s, Or.inl rfl⟩
  · exact ⟨_, _, h, rfl, rfl, movedHead_dir button s, Or.inr (movedHead_state button s)⟩
  · exact ⟨_, _, h, rfl, rfl, movedHead_dir button s, Or.inr (movedHead_state button s)⟩

/-! ## Direction and movement -/

/-- C11: in a tick the direction after `gamePlayingUpdate` is the one chosen by
the block `// input`: a confirm edge alone turns it along the clockwise cycle
UP, RIGHT, DOWN, LEFT, a cancel edge alone along the reverse cycle, no edge
leaves it unchanged; the two turns are inverse to each other, so both edges
together and four equal turns leave the direction unchanged. -/
theorem direction_rotation (W H : Nat) (rng : Rng) (s : Game) (hok : OledOk W H) :
    (∀ button : Button, ∃ g r, gamePlayingUpdate W H button rng s = some (g, r) ∧
      g.dir = (inputStep button s).dir) ∧
    (inputStep { YesUp := true, NoUp := false } s).dir = turnRight s.dir ∧
    (inputStep { YesUp := false, NoUp := true } s).dir = turnLeft s.dir ∧
    (inputStep { YesUp := false, NoUp := false } s).dir = s.dir ∧
    (inputStep { YesUp := true, NoUp := true } s).dir = s.dir ∧
    (turnRight GameDir.DIR_UP = GameDir.DIR_RIGHT ∧
      turnRight GameDir.DIR_RIGHT = GameDir.DIR_DOWN ∧
      turnRight GameDir.DIR_DOWN = GameDir.DIR_LEFT ∧
      turnRight GameDir.DIR_LEFT = GameDir.DIR_UP) ∧
    (turnLeft GameDir.DIR_UP = GameDir.DIR_LEFT ∧
      turnLeft GameDir.DIR_LEFT = GameDir.DIR_DOWN ∧
      turnLeft GameDir.DIR_DOWN = GameDir.DIR_RIGHT ∧
      turnLeft GameDir.DIR_RIGHT = GameDir.DIR_UP) ∧
    (∀ d, turnLeft (turnRight d) = d ∧ turnRight (turnLeft d) = d) ∧
    (∀ d, turnRight (turnRight (turnRight (turnRight d))) = d ∧
      turnLeft (turnLeft (turnLeft (turnLeft d))) = d) := by
  refine ⟨?_, rfl, rfl, rfl, ?_, ⟨rfl, rfl, rfl, rfl⟩, ⟨rfl, rfl, rfl, rfl⟩, ?_, ?_⟩
  · intro button
    obtain ⟨g, r, h, -, -, hd, -⟩ := tick_members hok button rng s
    exact ⟨g, r, h, hd⟩
  · show turnLeft (turnRight s.dir) = s.dir
    cases s.dir <;> rfl
  · intro d; cases d <;> exact ⟨rfl, rfl⟩
  · intro d; cases d <;> exact ⟨rfl, rfl⟩

/-- Witness of C11: the start state on a 128x64 display; a confirm edge turns DOWN to LEFT. -/
theorem direction_rotation_witness :
    OledOk 128 64 ∧
    (∃ g r, gamePlayingUpdate 128 64 confirmButton noSpawn (gameInit game) = some (g, r) ∧
      g.dir = GameDir.DIR_LEFT) ∧
    turnLeft (turnRight GameDir.DIR_DOWN) = GameDir.DIR_DOWN :=
  ⟨by decide,
    (direction_rotation 128 64 noSpawn (gameInit game) (by decide)).1 confirmButton,
    ((direction_rotation 128 64 noSpawn (gameInit game) (by decide)).2.2.2.2.2.2.2.1
      GameDir.DIR_DOWN).1⟩

/-- A value in the range of `int` is not changed by the reduction to that range. -/
theorem wrap32_id {v : Int} (h1 : -2147483648 ≤ v) (h2 : v ≤ 2147483647) : wrap32 v = v := by
  unfold wrap32; omega

/-- The block `// input` leaves the head where it is. -/
theorem inputStep_pos (button : Button) (g : Game) :
    (inputStep button g).x = g.x ∧ (inputStep button g).y = g.y := by
  unfold inputStep; split_ifs <;> exact ⟨rfl, rfl⟩

/-- The head after the move, by the direction chosen by the block `// input`. -/
theorem movedHead_pos (button : Button) (s : Game) :
    ((inputStep button s).dir = GameDir.DIR_UP →
      (movedHead button s).x = s.x ∧ (movedHead button s).y = wrap32 (s.y - 1)) ∧
    ((inputStep button s).dir = GameDir.DIR_DOWN →
      (movedHead button s).x = s.x ∧ (movedHead button s).y = wrap32 (s.y + 1)) ∧
    ((inputStep button s).dir = GameDir.DIR_LEFT →
      (movedHead button s).x = wrap32 (s.x - 1) ∧ (movedHead button s).y = s.y) ∧
    ((inputStep button s).dir = GameDir.DIR_RIGHT →
      (movedHead button s).x = wrap32 (s.x + 1) ∧ (movedHead button s).y = s.y) := by
  obtain ⟨ex, ey⟩ := inputStep_pos button s
  refine ⟨fun h => ?_, fun h => ?_, fun h => ?_, fun h => ?_⟩ <;>
    · unfold movedHead updateHead
      rw [h]
      simp only [ex, ey, and_self]

/-- A tick moves the head by one cell when neither coordinate is at an end of
the range of `int`. -/
theorem tick_moves_one_cell {W H : Nat} (hok : OledOk W H) (button : Button) (rng : Rng)
    (s : Game) (hx : INT_MIN < s.x ∧ s.x < INT_MAX) (hy : INT_MIN < s.y ∧ s.y < INT_MAX) :
    ∃ g r, gamePlayingUpdate W H button rng s = some (g, r) ∧
      g.dir = (inputStep button s).dir ∧
      (g.dir = GameDir.DIR_UP → g.x = s.x ∧ g.y = s.y - 1) ∧
      (g.dir = GameDir.DIR_DOWN → g.x = s.x ∧ g.y = s.y + 1) ∧
      (g.dir = GameDir.DIR_LEFT → g.x = s.x - 1 ∧ g.y = s.y) ∧
      (g.dir = GameDir.DIR_RIGHT → g.x = s.x + 1 ∧ g.y = s.y) := by
  obtain ⟨g, r, h, gx, gy, gd, -⟩ := tick_members hok button rng s
  obtain ⟨hU, hD, hL, hR⟩ := movedHead_pos button s
  unfold INT_MIN at hx hy
  unfold INT_MAX at hx hy
  refine ⟨g, r, h, gd, fun e => ?_, fun e => ?_, fun e => ?_, fun e => ?_⟩
  · rw [gx, gy, (hU (gd ▸ e)).1, (hU (gd ▸ e)).2, wrap32_id (by omega) (by omega)]
    exact ⟨rfl, rfl⟩
  · rw [gx, gy, (hD (gd ▸ e)).1, (hD (gd ▸ e)).2, wrap32_id (by omega) (by omega)]
    exact ⟨rfl, rfl⟩
  · rw [gx, gy, (hL (gd ▸ e)).1, (hL (gd ▸ e)).2, wrap32_id (by omega) (by omega)]
    exact ⟨rfl, rfl⟩
  · rw [gx, gy, (hR (gd ▸ e)).1, (hR (gd ▸ e)).2, wrap32_id (by omega) (by omega)]
    exact ⟨rfl, rfl⟩

/-- In every reachable state the head is far from the ends of the range of
`int`: in the phase Playing it is inside the grid or at the start position
(25,0), and in every phase both coordinates lie between -1 and 32768. -/
theorem reachable_head_range {W H : Nat} (hok : OledOk W H) {s : Game}
    (hreach : Reachable W H s) :
    (s.state = GameState.STATE_PLAYING → headInGrid W H s ∨ (s.x = 25 ∧ s.y = 0)) ∧
    (-1 ≤ s.x ∧ s.x ≤ 32768 ∧ -1 ≤ s.y ∧ s.y ≤ 32768) := by
  have hinit : ∀ g : Game,
      ((gameInit g).state = GameState.STATE_PLAYING →
        headInGrid W H (gameInit g) ∨ ((gameInit g).x = 25 ∧ (gameInit g).y = 0)) ∧
      (-1 ≤ (gameInit g).x ∧ (gameInit g).x ≤ 32768 ∧
        -1 ≤ (gameInit g).y ∧ (gameInit g).y ≤ 32768) := by
    intro g
    refine ⟨fun _ => Or.inr ⟨rfl, rfl⟩, ?_⟩
    show (-1 : Int) ≤ 25 ∧ (25 : Int) ≤ 32768 ∧ (-1 : Int) ≤ 0 ∧ (0 : Int) ≤ 32768
    decide
  induction hreach with
  | init g => exact hinit g
  | tick button rng rng' g g' _ hstep ih =>
    cases hst : g.state with
    | STATE_PLAYING =>
      rw [gameUpdate_playing W H button rng g hst] at hstep
      have hpos : 0 ≤ g.x ∧ g.x ≤ 32767 ∧ 0 ≤ g.y ∧ g.y ≤ 32767 := by
        obtain ⟨-, hW, -, hH⟩ := hok
        rcases ih.1 hst with hin | ⟨e1, e2⟩
        · unfold headInGrid at hin
          omega
        · rw [e1, e2]
          decide
      have hmoved : -1 ≤ (movedHead button g).x ∧ (movedHead button g).x ≤ 32768 ∧
          -1 ≤ (movedHead button g).y ∧ (movedHead button g).y ≤ 32768 := by
        obtain ⟨hU, hD, hL, hR⟩ := movedHead_pos button g
        cases hd : (inputStep button g).dir with
        | DIR_UP =>
          rw [(hU hd).1, (hU hd).2, wrap32_id (by omega) (by omega)]; omega
        | DIR_RIGHT =>
          rw [(hR hd).1, (hR hd).2, wrap32_id (by omega) (by omega)]; omega
        | DIR_DOWN =>
          rw [(hD hd).1, (hD hd).2, wrap32_id (by omega) (by omega)]; omega
        | DIR_LEFT =>
          rw [(hL hd).1, (hL hd).2, wrap32_id (by omega) (by omega)]; omega
      rcases tick_cases hok button rng g with ⟨-, h⟩ | ⟨hin, -, -, h⟩ | ⟨hin, -, -, h⟩
      · have e := (Prod.mk.inj (Option.some.inj (h.symm.trans hstep))).1
        subst e
        exact ⟨fun hp => absurd (show GameState.STATE_GAMEOVER = GameState.STATE_PLAYING from hp)
          (by decide), hmoved⟩
      · have e := (Prod.mk.inj (Option.some.inj (h.symm.trans hstep))).1
        subst e
        exact ⟨fun _ => Or.inl hin, hmoved⟩
      · have e := (Prod.mk.inj (Option.some.inj (h.symm.trans hstep))).1
        subst e
        exact ⟨fun _ => Or.inl hin, hmoved⟩
    | STATE_GAMEOVER =>
      rw [gameUpdate_gameover W H button rng g hst] at hstep
      have e := (Prod.mk.inj (Option.some.inj hstep)).1
      subst e
      unfold gameOverUpdate
      split_ifs
      · exact hinit g
      · exact ih

/-- C12: from every state reachable from `gameInit` (every Playing state of the
game is one) and for every input, whether or not the tick ends the game,
`gamePlayingUpdate` returns with the head one cell from the old position in the
direction chosen by the block `// input`: UP gives (x, y-1), DOWN (x, y+1),
LEFT (x-1, y), RIGHT (x+1, y). -/
theorem head_moves_one_cell (W H : Nat) (button : Button) (rng : Rng) (s : Game)
    (hok : OledOk W H) (hreach : Reachable W H s) :
    ∃ g r, gamePlayingUpdate W H button rng s = some (g, r) ∧
      g.dir = (inputStep button s).dir ∧
      (g.dir = GameDir.DIR_UP → g.x = s.x ∧ g.y = s.y - 1) ∧
      (g.dir = GameDir.DIR_DOWN → g.x = s.x ∧ g.y = s.y + 1) ∧
      (g.dir = GameDir.DIR_LEFT → g.x = s.x - 1 ∧ g.y = s.y) ∧
      (g.dir = GameDir.DIR_RIGHT → g.x = s.x + 1 ∧ g.y = s.y) := by
  obtain ⟨-, h1, h2, h3, h4⟩ := reachable_head_range hok hreach
  exact tick_moves_one_cell hok button rng s
    ⟨by unfold INT_MIN; omega, by unfold INT_MAX; omega⟩
    ⟨by unfold INT_MIN; omega, by unfold INT_MAX; omega⟩

/-- Witness of C12: the start state on a 128x64 display, no button edge: the
head goes down from (25,0) to (25,1). -/
theorem head_moves_one_cell_witness :
    OledOk 128 64 ∧ Reachable 128 64 (gameInit game) ∧
    ∃ g r, gamePlayingUpdate 128 64 noButton noSpawn (gameInit game) = some (g, r) ∧
      g.dir = (inputStep noButton (gameInit game)).dir ∧
      (g.dir = GameDir.DIR_UP → g.x = (gameInit game).x ∧ g.y = (gameInit game).y - 1) ∧
      (g.dir = GameDir.DIR_DOWN → g.x = (gameInit game).x ∧ g.y = (gameInit game).y + 1) ∧
      (g.dir = GameDir.DIR_LEFT → g.x = (gameInit game).x - 1 ∧ g.y = (gameInit game).y) ∧
      (g.dir = GameDir.DIR_RIGHT → g.x = (gameInit game).x + 1 ∧ g.y = (gameInit game).y) :=
  ⟨by decide, Reachable.init game,
    head_moves_one_cell 128 64 noButton noSpawn (gameInit game) (by decide)
      (Reachable.init game)⟩

/-! ## Collisions and bounds -/

/-- C13: from a Playing state, for every input and all random draws, the phase
after `gamePlayingUpdate` is GameOver if and only if the moved head is outside
the grid or the cell it enters is strictly positive; when the moved head is
inside the grid and that cell is zero or negative the phase remains Playing. -/
theorem only_collisions_end_game (W H : Nat) (button : Button) (rng : Rng) (s : Game)
    (hok : OledOk W H) (hs : s.state = GameState.STATE_PLAYING) :
    ∃ g r, gamePlayingUpdate W H button rng s = some (g, r) ∧
      (g.state = GameState.STATE_GAMEOVER ↔
        (¬ headInGrid W H (movedHead button s) ∨
          (headInGrid W H (movedHead button s) ∧ 0 < destCell W button s))) ∧
      (headInGrid W H (movedHead button s) ∧ destCell W button s ≤ 0 →
        g.state = GameState.STATE_PLAYING) := by
  have hp : (movedHead button s).state = GameState.STATE_PLAYING :=
    (movedHead_state button s).trans hs
  rcases tick_cases hok button rng s with ⟨hcol, h⟩ | ⟨hin, hc, -, h⟩ | ⟨hin, hc, -, h⟩
  · refine ⟨_, _, h, ⟨fun _ => hcol, fun _ => rfl⟩, ?_⟩
    rintro ⟨hin, hc⟩
    rcases hcol with h1 | ⟨-, h2⟩
    · exact absurd hin h1
    · omega
  · refine ⟨_, _, h, ⟨fun hg => ?_, ?_⟩, fun _ => hp⟩
    · have hg' : (movedHead button s).state = GameState.STATE_GAMEOVER := hg
      rw [hp] at hg'
      exact absurd hg' (by decide)
    · rintro (h1 | ⟨-, h2⟩)
      · exact absurd hin h1
      · omega
  · refine ⟨_, _, h, ⟨fun hg => ?_, ?_⟩, fun _ => hp⟩
    · have hg' : (movedHead button s).state = GameState.STATE_GAMEOVER := hg
      rw [hp] at hg'
      exact absurd hg' (by decide)
    · rintro (h1 | ⟨-, h2⟩)
      · exact absurd hin h1
      · omega

/-- Witness of C13: the start state on a 128x64 display, no button edge. -/
theorem only_collisions_end_game_witness :
    OledOk 128 64 ∧ (gameInit game).state = GameState.STATE_PLAYING ∧
    ∃ g r, gamePlayingUpdate 128 64 noButton noSpawn (gameInit game) = some (g, r) ∧
      (g.state = GameState.STATE_GAMEOVER ↔
        (¬ headInGrid 128 64 (movedHead noButton (gameInit game)) ∨
          (headInGrid 128 64 (movedHead noButton (gameInit game)) ∧
            0 < destCell 128 noButton (gameInit game)))) ∧
      (headInGrid 128 64 (movedHead noButton (gameInit game)) ∧
          destCell 128 noButton (gameInit game) ≤ 0 →
        g.state = GameState.STATE_PLAYING) :=
  ⟨by decide, rfl,
    only_collisions_end_game 128 64 noButton noSpawn (gameInit game) (by decide) rfl⟩

/-- The coordinates of the spawn, after the conversion to `int16_t`, are inside the grid. -/
theorem bug_coordinates {W H : Nat} (hok : OledOk W H) (rng : Rng) :
    0 ≤ wrap16 ((draw2 rng % W : Nat) : Int) ∧ wrap16 ((draw2 rng % W : Nat) : Int) < (W : Int) ∧
    0 ≤ wrap16 ((draw3 rng % H : Nat) : Int) ∧
    wrap16 ((draw3 rng % H : Nat) : Int) < (H : Int) := by
  obtain ⟨hW0, hW, hH0, hH⟩ := hok
  have hx : draw2 rng % W < W := Nat.mod_lt _ hW0
  have hy : draw3 rng % H < H := Nat.mod_lt _ hH0
  rw [wrap16_small (by omega), wrap16_small (by omega)]
  omega

/-- The block `// spawn a bug maybe?` never leaves the array. -/
theorem spawnStep_total {W H : Nat} (hok : OledOk W H) (rng : Rng) (g : Game) :
    ∃ g' r, spawnStep W H rng g = some (g', r) := by
  by_cases hr : g.spawn_rate < draw1 rng
  · exact ⟨_, _, spawnStep_spawn hok rng g hr⟩
  · exact ⟨_, _, spawnStep_skip W H rng g hr⟩

/-- C14: for every state (any head position, direction and grid), every input
and all random draws, `gamePlayingUpdate` returns, so no access leaves the
array `field[OLED_WIDTH * OLED_HEIGHT]`. Site by site: a head outside the grid
returns at the first test, before any access, and otherwise the collision
reads and the head write use the head coordinates, which are inside the grid;
the decay loops run over `x < OLED_WIDTH` and `y < OLED_HEIGHT` and never
fail; the spawn coordinates are inside the grid and the spawn never fails;
and coordinates inside the grid give an offset inside the array. -/
theorem accesses_in_bounds (W H : Nat) (button : Button) (rng : Rng) (s : Game)
    (hok : OledOk W H) :
    (∃ g r, gamePlayingUpdate W H button rng s = some (g, r)) ∧
    (¬ headInGrid W H (movedHead button s) →
      gamePlayingUpdate W H button rng s =
        some ({ movedHead button s with state := GameState.STATE_GAMEOVER }, rng)) ∧
    (headInGrid W H (movedHead button s) →
      (0 ≤ (movedHead button s).x ∧ (movedHead button s).x < (W : Int) ∧
        0 ≤ (movedHead button s).y ∧ (movedHead button s).y < (H : Int)) ∧
      ∃ c, cellRead W H (movedHead button s) (movedHead button s).x (movedHead button s).y
        = some c) ∧
    (∀ g : Game, (∀ x y : Nat, x ∈ List.range W → y ∈ List.range H →
        x < W ∧ y < H ∧ ∃ g', decayCell W H y g x = some g') ∧
      ∃ g', decayPass W H g = some g') ∧
    (0 ≤ wrap16 ((draw2 rng % W : Nat) : Int) ∧
      wrap16 ((draw2 rng % W : Nat) : Int) < (W : Int) ∧
      0 ≤ wrap16 ((draw3 rng % H : Nat) : Int) ∧
      wrap16 ((draw3 rng % H : Nat) : Int) < (H : Int)) ∧
    (∀ g : Game, ∃ g' r, spawnStep W H rng g = some (g', r)) ∧
    (∀ x y : Int, 0 ≤ x → x < (W : Int) → 0 ≤ y → y < (H : Int) →
      0 ≤ GAME_CELL W x y ∧ GAME_CELL W x y < ((W * H : Nat) : Int)) := by
  refine ⟨?_, tick_outside W H button rng s, fun hin => ⟨hin, _, cellRead_inGrid _ hin⟩,
    fun g => ⟨fun x y hx hy => ?_, _, decayPass_eq W H g⟩, bug_coordinates hok rng,
    spawnStep_total hok rng, ?_⟩
  · obtain ⟨g, r, h, -⟩ := tick_members hok button rng s
    exact ⟨g, r, h⟩
  · have hx' := List.mem_range.mp hx
    have hy' := List.mem_range.mp hy
    exact ⟨hx', hy', _, decayCell_eq g hx' hy'⟩
  · intro x y hx0 hx hy0 hy
    obtain ⟨xn, rfl⟩ := Int.eq_ofNat_of_zero_le hx0
    obtain ⟨yn, rfl⟩ := Int.eq_ofNat_of_zero_le hy0
    rw [GAME_CELL_nat]
    have := @index_lt W H xn yn (by exact_mod_cast hx) (by exact_mod_cast hy)
    exact ⟨Int.ofNat_nonneg _, by exact_mod_cast this⟩

/-- Witness of C14: the 128x64 display and the state with the head at `x = INT_MAX`. -/
theorem accesses_in_bounds_witness :
    OledOk 128 64 ∧
    (∃ g r, gamePlayingUpdate 128 64 noButton allMax atIntMax = some (g, r)) ∧
    (∃ g r, gamePlayingUpdate 128 64 noButton allMax (gameInit game) = some (g, r)) :=
  ⟨by decide, (accesses_in_bounds 128 64 noButton allMax atIntMax (by decide)).1,
    (accesses_in_bounds 128 64 noButton allMax (gameInit game) (by decide)).1⟩

/-! ## The head in reachable states -/

/-- From a head inside the grid the moved head is at most one cell outside it. -/
theorem movedHead_near {W H : Nat} (hok : OledOk W H) (button : Button) {s : Game}
    (hin : headInGrid W H s) :
    -1 ≤ (movedHead button s).x ∧ (movedHead button s).x ≤ (W : Int) ∧
    -1 ≤ (movedHead button s).y ∧ (movedHead button s).y ≤ (H : Int) := by
  obtain ⟨hW0, hW, hH0, hH⟩ := hok
  obtain ⟨hx0, hx, hy0, hy⟩ := hin
  obtain ⟨hU, hD, hL, hR⟩ := movedHead_pos button s
  cases hd : (inputStep button s).dir with
  | DIR_UP =>
    rw [(hU hd).1, (hU hd).2, wrap32_id (by omega) (by omega)]; omega
  | DIR_RIGHT =>
    rw [(hR hd).1, (hR hd).2, wrap32_id (by omega) (by omega)]; omega
  | DIR_DOWN =>
    rw [(hD hd).1, (hD hd).2, wrap32_id (by omega) (by omega)]; omega
  | DIR_LEFT =>
    rw [(hL hd).1, (hL hd).2, wrap32_id (by omega) (by omega)]; omega

/-- The first tick of the run to `gameOverState`: the confirm edge turns the head to the left. -/
theorem start_to_headingLeft :
    gameUpdate 128 64 confirmButton noSpawn (gameInit game)
      = some (headingLeft, rest1 noSpawn) := by
  rw [gameUpdate_playing 128 64 confirmButton noSpawn (gameInit game) rfl,
    tick_skip 128 64 confirmButton noSpawn (gameInit game) (by decide) (by decide)
      (by decide)]
  have hf : (afterMove 128 64 confirmButton (gameInit game)).field = headingLeft.field := by
    funext i
    have e2 : headCell 128 confirmButton (gameInit game) = 24 := by decide
    have e3 : lenAfterEating (destCell 128 confirmButton (gameInit game))
        (gameInit game).len = 16 := by decide
    have e4 : (gameInit game).field = fun _ => 0 := rfl
    rw [afterMove_field, e2, e3, e4, passField_zero]
    rfl
  have : afterMove 128 64 confirmButton (gameInit game)
      = { afterMove 128 64 confirmButton (gameInit game) with
          field := (afterMove 128 64 confirmButton (gameInit game)).field } := rfl
  rw [this, hf]
  rfl

/-- The second tick of the run to `gameOverState`: the head turns up and leaves the grid. -/
theorem headingLeft_to_gameOver :
    gameUpdate 128 64 confirmButton (rest1 noSpawn) headingLeft
      = some (gameOverState, rest1 noSpawn) := by
  rw [gameUpdate_playing 128 64 confirmButton _ headingLeft rfl,
    tick_outside 128 64 confirmButton _ headingLeft (by decide)]
  rfl

/-- The state `gameOverState` is reachable on a 128x64 display. -/
theorem gameOverState_reachable : Reachable 128 64 gameOverState :=
  Reachable.tick confirmButton _ _ headingLeft gameOverState
    (Reachable.tick confirmButton _ _ (gameInit game) headingLeft (Reachable.init game)
      start_to_headingLeft)
    headingLeft_to_gameOver

/-- C15 (counterexample): on a 128x64 display, two ticks with the confirm edge
lead from the start state to `gameOverState`, a reachable state whose head is
at `y = -1`, outside the grid. -/
theorem head_position_reachable_counterexample :
    gameLoop 128 64 [confirmButton, confirmButton] noSpawn (gameInit game)
      = some (gameOverState, rest1 noSpawn) ∧
    Reachable 128 64 gameOverState ∧ gameOverState.y = -1 ∧
    ¬ (0 ≤ gameOverState.x ∧ gameOverState.x < 128 ∧
      0 ≤ gameOverState.y ∧ gameOverState.y < 64) := by
  refine ⟨?_, gameOverState_reachable, rfl, by decide⟩
  unfold gameLoop
  rw [start_to_headingLeft]
  simp only []
  unfold gameLoop
  rw [headingLeft_to_gameOver]
  rfl

/-- C15 (amended): on a display with `OLED_WIDTH > 25`, in every state
reachable from `gameInit` by ticks of `gameUpdate` (any inputs, any draws), the
head is inside the grid whenever the phase is Playing, and in every phase it is
at most one cell outside: `-1 <= x <= OLED_WIDTH` and `-1 <= y <= OLED_HEIGHT`. -/
theorem head_position_reachable (W H : Nat) (s : Game) (hok : OledOk W H) (hW : 25 < W)
    (hreach : Reachable W H s) :
    (s.state = GameState.STATE_PLAYING →
      0 ≤ s.x ∧ s.x < (W : Int) ∧ 0 ≤ s.y ∧ s.y < (H : Int)) ∧
    (-1 ≤ s.x ∧ s.x ≤ (W : Int) ∧ -1 ≤ s.y ∧ s.y ≤ (H : Int)) := by
  have hinit : ∀ g : Game, headInGrid W H (gameInit g) := by
    intro g
    obtain ⟨-, -, hH0, -⟩ := hok
    show (0 : Int) ≤ 25 ∧ (25 : Int) < (W : Int) ∧ (0 : Int) ≤ 0 ∧ (0 : Int) < (H : Int)
    omega
  have hnear : ∀ g : Game, headInGrid W H g →
      -1 ≤ g.x ∧ g.x ≤ (W : Int) ∧ -1 ≤ g.y ∧ g.y ≤ (H : Int) := by
    intro g hg
    unfold headInGrid at hg
    omega
  induction hreach with
  | init g => exact ⟨fun _ => hinit g, hnear _ (hinit g)⟩
  | tick button rng rng' g g' _ hstep ih =>
    cases hst : g.state with
    | STATE_PLAYING =>
      rw [gameUpdate_playing W H button rng g hst] at hstep
      have hg : headInGrid W H g := ih.1 hst
      have hmoved := movedHead_near hok button hg
      rcases tick_cases hok button rng g with ⟨-, h⟩ | ⟨hin, -, -, h⟩ | ⟨hin, -, -, h⟩
      · have e := (Prod.mk.inj (Option.some.inj (h.symm.trans hstep))).1
        subst e
        exact ⟨fun hp => absurd (show GameState.STATE_GAMEOVER = GameState.STATE_PLAYING from hp)
          (by decide), hmoved⟩
      · have e := (Prod.mk.inj (Option.some.inj (h.symm.trans hstep))).1
        subst e
        exact ⟨fun _ => hin, hmoved⟩
      · have e := (Prod.mk.inj (Option.some.inj (h.symm.trans hstep))).1
        subst e
        exact ⟨fun _ => hin, hmoved⟩
    | STATE_GAMEOVER =>
      rw [gameUpdate_gameover W H button rng g hst] at hstep
      have e := (Prod.mk.inj (Option.some.inj hstep)).1
      subst e
      unfold gameOverUpdate
      split_ifs
      · exact ⟨fun _ => hinit g, hnear _ (hinit g)⟩
      · exact ih

/-- Witness of C15 (amended): the reachable GameOver state on a 128x64 display. -/
theorem head_position_reachable_witness :
    OledOk 128 64 ∧ 25 < 128 ∧ Reachable 128 64 gameOverState ∧
    (gameOverState.state = GameState.STATE_PLAYING →
      0 ≤ gameOverState.x ∧ gameOverState.x < 128 ∧
      0 ≤ gameOverState.y ∧ gameOverState.y < 64) ∧
    (-1 ≤ gameOverState.x ∧ gameOverState.x ≤ 128 ∧
      -1 ≤ gameOverState.y ∧ gameOverState.y ≤ 64) :=
  ⟨by decide, by decide, gameOverState_reachable,
    head_position_reachable 128 64 gameOverState (by decide) (by decide)
      gameOverState_reachable⟩

/-! ## The number of positive cells -/

/-- A cell that is positive after its decay was positive before. -/
theorem decayValue_pos {c : Int} (h : 0 < decayValue c) : 0 < c := by
  unfold decayValue at h; split_ifs at h <;> omega

/-- The decay pass turns no cell positive. -/
theorem positiveCells_pass (W H : Nat) (f : Nat → Int) :
    positiveCells W H (passField W H f) ⊆ positiveCells W H f := by
  intro i hi
  unfold positiveCells at hi ⊢
  rw [Finset.mem_filter] at hi ⊢
  refine ⟨hi.1, ?_⟩
  have h := hi.2
  unfold passField at h
  split_ifs at h
  · exact decayValue_pos h
  · exact h

/-- A store of a value that is not positive adds no positive cell. -/
theorem positiveCells_update_nonpos (W H : Nat) (f : Nat → Int) (b : Nat) {v : Int}
    (hv : v ≤ 0) : positiveCells W H (Function.update f b v) ⊆ positiveCells W H f := by
  intro i hi
  unfold positiveCells at hi ⊢
  rw [Finset.mem_filter] at hi ⊢
  refine ⟨hi.1, ?_⟩
  have h := hi.2
  rw [Function.update_apply] at h
  split_ifs at h
  · omega
  · exact h

/-- A store adds at most its own offset to the positive cells. -/
theorem positiveCells_update (W H : Nat) (f : Nat → Int) (b : Nat) (v : Int) :
    positiveCells W H (Function.update f b v) ⊆ insert b (positiveCells W H f) := by
  intro i hi
  unfold positiveCells at hi ⊢
  rw [Finset.mem_filter] at hi
  rw [Finset.mem_insert, Finset.mem_filter]
  by_cases e : i = b
  · exact Or.inl e
  · have h := hi.2
    rw [Function.update_noteq e] at h
    exact Or.inr ⟨hi.1, h⟩

/-- The positive cells after the decay pass and the head write. -/
theorem positiveCount_afterMove (W H : Nat) (button : Button) (s : Game) :
    positiveCount W H (afterMove W H button s).field ≤ positiveCount W H s.field + 1 := by
  unfold positiveCount
  have h1 : positiveCells W H (afterMove W H button s).field
      ⊆ insert (headCell W button s) (positiveCells W H s.field) :=
    (positiveCells_update W H _ _ _).trans
      (Finset.insert_subset_insert _ (positiveCells_pass W H s.field))
  exact (Finset.card_le_card h1).trans (Finset.card_insert_le _ _)

/-- C16: the decay pass never increases the number of strictly positive cells
of the grid, the spawn never adds a positive cell, and after the whole tick the
number of strictly positive cells is at most the number before the tick plus
one. -/
theorem positive_count (W H : Nat) (button : Button) (rng : Rng) (s : Game)
    (hok : OledOk W H) :
    (∀ g : Game, ∃ g', decayPass W H g = some g' ∧
      positiveCount W H g'.field ≤ positiveCount W H g.field) ∧
    (∀ g : Game, ∃ g' r, spawnStep W H rng g = some (g', r) ∧
      positiveCount W H g'.field ≤ positiveCount W H g.field) ∧
    ∃ g r, gamePlayingUpdate W H button rng s = some (g, r) ∧
      positiveCount W H g.field ≤ positiveCount W H s.field + 1 := by
  refine ⟨fun g => ⟨_, decayPass_eq W H g, ?_⟩, fun g => ?_, ?_⟩
  · exact Finset.card_le_card (positiveCells_pass W H g.field)
  · by_cases hr : g.spawn_rate < draw1 rng
    · exact ⟨_, _, spawnStep_spawn hok rng g hr,
        Finset.card_le_card (positiveCells_update_nonpos W H g.field _ (by decide))⟩
    · exact ⟨_, _, spawnStep_skip W H rng g hr, le_rfl⟩
  · rcases tick_cases hok button rng s with ⟨-, h⟩ | ⟨-, -, -, h⟩ | ⟨-, -, -, h⟩
    · refine ⟨_, _, h, ?_⟩
      show positiveCount W H (movedHead button s).field ≤ _
      rw [movedHead_field]
      exact Nat.le_succ _
    · refine ⟨_, _, h, ?_⟩
      exact (Finset.card_le_card
        (positiveCells_update_nonpos W H _ _ (by decide))).trans
        (positiveCount_afterMove W H button s)
    · exact ⟨_, _, h, positiveCount_afterMove W H button s⟩

/-- Witness of C16: the tick of the decay scenario on a 128x64 display. -/
theorem positive_count_witness :
    OledOk 128 64 ∧
    ∃ g r, gamePlayingUpdate 128 64 noButton noSpawn twoTrail = some (g, r) ∧
      positiveCount 128 64 g.field ≤ positiveCount 128 64 twoTrail.field + 1 :=
  ⟨by decide, (positive_count 128 64 noButton noSpawn twoTrail (by decide)).2.2⟩

/-! ## Lifetimes of trail cells and of bugs -/

/-- A tick that returns in the phase Playing did not end the game. -/
theorem tick_playing {W H : Nat} {button : Button} {rng r : Rng} {s g : Game}
    (h : gamePlayingUpdate W H button rng s = some (g, r))
    (hg : g.state = GameState.STATE_PLAYING) :
    headInGrid W H (movedHead button s) ∧ destCell W button s ≤ 0 := by
  by_cases hin : headInGrid W H (movedHead button s)
  · by_cases hc : 0 < destCell W button s
    · rw [tick_body W H button rng s hin hc] at h
      have e := (Prod.mk.inj (Option.some.inj h)).1
      subst e
      exact absurd (show GameState.STATE_GAMEOVER = GameState.STATE_PLAYING from hg)
        (by decide)
    · exact ⟨hin, by omega⟩
  · rw [tick_outside W H button rng s hin] at h
    have e := (Prod.mk.inj (Option.some.inj h)).1
    subst e
    exact absurd (show GameState.STATE_GAMEOVER = GameState.STATE_PLAYING from hg)
      (by decide)

/-- The cells after a tick that does not end the game. -/
theorem tick_field {W H : Nat} (hok : OledOk W H) {button : Button} {rng r : Rng} {s g : Game}
    (h : gamePlayingUpdate W H button rng s = some (g, r))
    (hg : g.state = GameState.STATE_PLAYING) (i : Nat) :
    g.field i =
      if s.spawn_rate < draw1 rng ∧ bugCell W H rng = i then -256
      else if i = headCell W button s then lenAfterEating (destCell W button s) s.len
      else passField W H s.field i := by
  obtain ⟨hin, hc⟩ := tick_playing h hg
  by_cases hr : s.spawn_rate < draw1 rng
  · rw [tick_spawn hok button rng s hin hc hr] at h
    have e := (Prod.mk.inj (Option.some.inj h)).1
    subst e
    show Function.update _ (bugCell W H rng) (-256) i = _
    rw [Function.update_apply, afterMove_field]
    by_cases hb : i = bugCell W H rng
    · have hyes : s.spawn_rate < draw1 rng ∧ bugCell W H rng = i := ⟨hr, hb.symm⟩
      rw [if_pos hb, if_pos hyes]
    · have hno : ¬ (s.spawn_rate < draw1 rng ∧ bugCell W H rng = i) := fun hh => hb hh.2.symm
      rw [if_neg hb, if_neg hno]
  · rw [tick_skip W H button rng s hin hc hr] at h
    have e := (Prod.mk.inj (Option.some.inj h)).1
    subst e
    have hno : ¬ (s.spawn_rate < draw1 rng ∧ bugCell W H rng = i) := fun hh => hr hh.1
    rw [afterMove_field, if_neg hno]

/-- A cell of the grid that neither the head nor the spawn touches decays by one step. -/
theorem tick_decays {W H : Nat} (hok : OledOk W H) {button : Button} {rng r : Rng}
    {s g : Game} (h : gamePlayingUpdate W H button rng s = some (g, r))
    (hg : g.state = GameState.STATE_PLAYING) {c : Nat} (hc : c < W * H)
    (hns : ¬ (s.spawn_rate < draw1 rng ∧ bugCell W H rng = c))
    (hh : headCell W button s ≠ c) : g.field c = decayValue (s.field c) := by
  rw [tick_field hok h hg c, if_neg hns, if_neg (Ne.symm hh)]
  unfold passField
  rw [if_pos (by rw [Nat.mul_comm H W]; exact hc)]

/-- Along a quiet run a positive cell counts down by one per tick. -/
theorem quietRun_trail {W H : Nat} (hok : OledOk W H) {c : Nat} (hc : c < W * H)
    {avoid : Bool} {k : Nat} {s g : Game} (hrun : QuietRun W H c avoid k s g) :
    (k : Int) ≤ s.field c → g.field c = s.field c - (k : Int) := by
  induction hrun with
  | done s => intro _; simp
  | tick k s s1 s2 button rng r _ hs1 hstep hs2 hns _ ih =>
    intro hk
    have hprev : s1.field c = s.field c - (k : Int) := ih (by push_cast at hk; omega)
    rw [gameUpdate_playing W H button rng s1 hs1] at hstep
    obtain ⟨-, hdest⟩ := tick_playing hstep hs2
    have hpos : 0 < s1.field c := by push_cast at hk; omega
    have hh : headCell W button s1 ≠ c := by
      intro e
      unfold destCell at hdest
      rw [e] at hdest
      omega
    rw [tick_decays hok hstep hs2 hc hns hh, hprev]
    unfold decayValue
    rw [← hprev, if_pos hpos]
    push_cast
    omega

/-- Along a quiet run that the head keeps out of, a negative cell counts up by one per tick. -/
theorem quietRun_bug {W H : Nat} (hok : OledOk W H) {c : Nat} (hc : c < W * H)
    {k : Nat} {s g : Game} (hrun : QuietRun W H c true k s g) :
    s.field c + (k : Int) ≤ 0 → g.field c = s.field c + (k : Int) := by
  induction hrun with
  | done s => intro _; simp
  | tick k s s1 s2 button rng r _ hs1 hstep hs2 hns hav ih =>
    intro hk
    have hprev : s1.field c = s.field c + (k : Int) := ih (by push_cast at hk; omega)
    rw [gameUpdate_playing W H button rng s1 hs1] at hstep
    have hneg : s1.field c < 0 := by push_cast at hk; omega
    rw [tick_decays hok hstep hs2 hc hns (hav rfl), hprev]
    unfold decayValue
    rw [← hprev, if_neg (by omega), if_pos hneg]
    push_cast
    omega

/-- C17 (counterexample): on a 128x64 display, the first tick after the start
writes the head value 16 into cell (25,1), offset 153, and the spawn of the
same tick, with the draws `UINT32_MAX`, 25 and 1, overwrites it: after no
further tick the cell holds -256, not 16 - 0. -/
theorem trail_time_to_live_counterexample :
    ∃ s r, gamePlayingUpdate 128 64 noButton headSpawnDraws (gameInit game) = some (s, r) ∧
      s.state = GameState.STATE_PLAYING ∧ (GAME_CELL 128 s.x s.y).toNat = 153 ∧
      s.len = 16 ∧ QuietRun 128 64 153 false 0 s s ∧
      s.field 153 = -256 ∧ s.field 153 ≠ s.len - 0 := by
  have h1 := tick_spawn (by decide : OledOk 128 64) noButton headSpawnDraws (gameInit game)
    (by decide) (by decide) (by decide)
  have hf : (Function.update (afterMove 128 64 noButton (gameInit game)).field
      (bugCell 128 64 headSpawnDraws) (-256)) 153 = -256 := by
    have e : bugCell 128 64 headSpawnDraws = 153 := by decide
    rw [e, Function.update_same]
  refine ⟨_, _, h1, rfl, by decide, rfl, QuietRun.done _, hf, ?_⟩
  show (Function.update (afterMove 128 64 noButton (gameInit game)).field
    (bugCell 128 64 headSpawnDraws) (-256)) 153 ≠ (16 : Int) - 0
  rw [hf]
  decide

/-- C17 (amended): if a tick that does not end the game writes the head value
`L` (the target length after the tick) into the cell `c` under the new head,
the spawn of that tick does not overwrite `c`, and no spawn writes `c` in the
`k` further Playing ticks of a run in which the game does not end, with
`k <= L`, then after the run cell `c` holds `L - k`: it is non-empty while
`k < L` and empty when `k = L`. That the head does not re-enter `c` is not
assumed: entering a positive cell ends the game. -/
theorem trail_time_to_live (W H : Nat) (button : Button) (rng r : Rng) (s0 s g : Game)
    (k : Nat) (hok : OledOk W H)
    (hwrite : gamePlayingUpdate W H button rng s0 = some (s, r))
    (hs : s.state = GameState.STATE_PLAYING)
    (hns : ¬ (s0.spawn_rate < draw1 rng ∧ bugCell W H rng = headCell W button s0))
    (hrun : QuietRun W H (headCell W button s0) false k s g)
    (hk : (k : Int) ≤ s.len) :
    headCell W button s0 = (GAME_CELL W s.x s.y).toNat ∧
    s.field (headCell W button s0) = s.len ∧
    g.field (headCell W button s0) = s.len - (k : Int) ∧
    ((k : Int) < s.len → g.field (headCell W button s0) ≠ 0) ∧
    ((k : Int) = s.len → g.field (headCell W button s0) = 0) := by
  obtain ⟨hin, hc⟩ := tick_playing hwrite hs
  obtain ⟨hlen, -, -⟩ := tick_len hin hc hwrite
  have hpos : s.x = (movedHead button s0).x ∧ s.y = (movedHead button s0).y := by
    have h := hwrite
    rw [tick_move W H button rng s0 hin hc] at h
    obtain ⟨-, -, -, -, hx, hy⟩ := spawnStep_some h
    exact ⟨hx, hy⟩
  have hcell : s.field (headCell W button s0) = s.len := by
    rw [tick_field hok hwrite hs, if_neg hns, if_pos rfl, hlen]
  have hfinal : g.field (headCell W button s0) = s.len - (k : Int) := by
    rw [quietRun_trail hok (headCell_lt hin) hrun (by rw [hcell]; exact hk), hcell]
  refine ⟨?_, hcell, hfinal, fun h => ?_, fun h => ?_⟩
  · unfold headCell
    rw [hpos.1, hpos.2]
  · rw [hfinal]; omega
  · rw [hfinal]; omega

/-- Witness of C17 (amended): on a 128x64 display the first tick writes 16 into cell
(25,1), offset 153; one tick later the cell holds 15. -/
theorem trail_time_to_live_witness :
    OledOk 128 64 ∧
    gamePlayingUpdate 128 64 noButton noSpawn (gameInit game)
      = some (afterMove 128 64 noButton (gameInit game), rest1 noSpawn) ∧
    QuietRun 128 64 153 false 1 (afterMove 128 64 noButton (gameInit game))
      (afterMove 128 64 noButton (afterMove 128 64 noButton (gameInit game))) ∧
    (afterMove 128 64 noButton (gameInit game)).field 153 = 16 ∧
    (afterMove 128 64 noButton (afterMove 128 64 noButton (gameInit game))).field 153
      = 15 := by
  have hok : OledOk 128 64 := by decide
  have h1 := tick_skip 128 64 noButton noSpawn (gameInit game) (by decide) (by decide)
    (by decide)
  have h2 : gameUpdate 128 64 noButton (rest1 noSpawn)
      (afterMove 128 64 noButton (gameInit game))
      = some (afterMove 128 64 noButton (afterMove 128 64 noButton (gameInit game)),
          rest1 (rest1 noSpawn)) :=
    (gameUpdate_playing 128 64 noButton _ _ rfl).trans
      (tick_skip 128 64 noButton _ _ (by decide) (by decide) (by decide))
  have hrun : QuietRun 128 64 153 false 1 (afterMove 128 64 noButton (gameInit game))
      (afterMove 128 64 noButton (afterMove 128 64 noButton (gameInit game))) :=
    QuietRun.tick 0 _ _ _ noButton _ _ (QuietRun.done _) rfl h2 rfl (by decide)
      (fun h => absurd h (by decide))
  have h := trail_time_to_live 128 64 noButton noSpawn (rest1 noSpawn) (gameInit game)
    (afterMove 128 64 noButton (gameInit game))
    (afterMove 128 64 noButton (afterMove 128 64 noButton (gameInit game))) 1 hok h1 rfl
    (by decide) hrun (by decide)
  exact ⟨hok, h1, hrun, h.2.1, h.2.2.1⟩

/-- C18: a bug spawned into cell `c` (column `draw2 % OLED_WIDTH`, row
`draw3 % OLED_HEIGHT`) holds -256 at the end of its spawn tick; after `k`
further Playing ticks of a run in which the game does not end, the head does
not enter `c` and no spawn writes `c`, with `k <= 256`, cell `c` holds
`-256 + k`: the bug is there while `k < 256` and gone when `k = 256`. -/
theorem bug_lifetime_countdown (W H : Nat) (button : Button) (rng r : Rng) (s0 s g : Game)
    (k : Nat) (hok : OledOk W H)
    (hspawn : gamePlayingUpdate W H button rng s0 = some (s, r))
    (hs : s.state = GameState.STATE_PLAYING) (hr : s0.spawn_rate < draw1 rng)
    (hrun : QuietRun W H (bugCell W H rng) true k s g) (hk : k ≤ 256) :
    bugCell W H rng = (draw3 rng % H) * W + draw2 rng % W ∧
    s.field (bugCell W H rng) = -256 ∧
    g.field (bugCell W H rng) = -256 + (k : Int) ∧
    (k < 256 → g.field (bugCell W H rng) ≠ 0) ∧
    (k = 256 → g.field (bugCell W H rng) = 0) := by
  have hcell : s.field (bugCell W H rng) = -256 := by
    have hyes : s0.spawn_rate < draw1 rng ∧ bugCell W H rng = bugCell W H rng := ⟨hr, rfl⟩
    rw [tick_field hok hspawn hs, if_pos hyes]
  have hlt : bugCell W H rng < W * H := by
    obtain ⟨hW0, -, hH0, -⟩ := hok
    exact index_lt (Nat.mod_lt _ hW0) (Nat.mod_lt _ hH0)
  have hfinal : g.field (bugCell W H rng) = -256 + (k : Int) := by
    rw [quietRun_bug hok hlt hrun (by rw [hcell]; omega), hcell]
  refine ⟨rfl, hcell, hfinal, fun h => ?_, fun h => ?_⟩
  · rw [hfinal]; omega
  · rw [hfinal]; omega

/-- Witness of C18: on a 128x64 display the first tick spawns a bug at (0,0);
one tick later the cell holds -255. -/
theorem bug_lifetime_countdown_witness :
    OledOk 128 64 ∧ (gameInit game).spawn_rate < draw1 oneSpawnDraws ∧
    bugCell 128 64 oneSpawnDraws = 0 ∧
    ∃ s g, gamePlayingUpdate 128 64 noButton oneSpawnDraws (gameInit game)
        = some (s, rest3 oneSpawnDraws) ∧
      QuietRun 128 64 0 true 1 s g ∧ s.field 0 = -256 ∧ g.field 0 = -255 := by
  have hok : OledOk 128 64 := by decide
  have hr : (gameInit game).spawn_rate < draw1 oneSpawnDraws := by decide
  have h1 := tick_spawn hok noButton oneSpawnDraws (gameInit game) (by decide) (by decide) hr
  have h2 := (gameUpdate_playing 128 64 noButton (rest3 oneSpawnDraws) _ rfl).trans
    (tick_skip 128 64 noButton (rest3 oneSpawnDraws)
      { afterMove 128 64 noButton (gameInit game) with
        field := Function.update (afterMove 128 64 noButton (gameInit game)).field
          (bugCell 128 64 oneSpawnDraws) (-256) }
      (by decide) (by decide) (by decide))
  have hrun : QuietRun 128 64 0 true 1 _ _ :=
    QuietRun.tick 0 _ _ _ noButton _ _ (QuietRun.done _) rfl h2 rfl (by decide)
      (fun _ => by decide)
  have h := bug_lifetime_countdown 128 64 noButton oneSpawnDraws (rest3 oneSpawnDraws)
    (gameInit game) _ _ 1 hok h1 rfl hr hrun (by decide)
  exact ⟨hok, hr, by decide, _, _, h1, hrun, h.2.1, h.2.2.1⟩

/-! ## The frame drawn by `gameDraw` -/

/-- One iteration of the loops of `gamePlayingDraw` activates the pixel of a non-empty cell. -/
theorem drawCell_eq {W H x y : Nat} (game : Game) (d : Display) (hx : x < W) (hy : y < H) :
    drawCell W H game y d x =
      some { d with
        pixels := (fun a b =>
          d.pixels a b || decide (b = y ∧ a = x ∧ game.field (y * W + x) ≠ 0)) } := by
  unfold drawCell
  rw [cellRead_nat game hx hy]
  by_cases hc : game.field (y * W + x) ≠ 0
  · have hp : (fun a b => if a = x ∧ b = y then true else d.pixels a b)
        = (fun a b => d.pixels a b || decide (b = y ∧ a = x ∧ game.field (y * W + x) ≠ 0)) := by
      funext a b
      by_cases h : a = x ∧ b = y
      · simp [h.1, h.2, hc]
      · have h' : ¬ (b = y ∧ a = x) := fun hh => h ⟨hh.2, hh.1⟩
        simp [h]
        intro e1 e2
        exact absurd ⟨e1, e2⟩ h'
    simp only [if_pos hc]
    unfold oledDrawPixel
    rw [hp]
  · have hp : (fun a b => d.pixels a b || decide (b = y ∧ a = x ∧ game.field (y * W + x) ≠ 0))
        = d.pixels := by
      funext a b
      simp [hc]
    simp only [if_neg hc]
    rw [hp]

/-- The inner loop of `gamePlayingDraw` after `n` iterations. -/
theorem drawRow_upto {W H y : Nat} (hy : y < H) (game : Game) (d : Display) :
    ∀ n, n ≤ W → (List.range n).foldlM (drawCell W H game y) d =
      some { d with pixels := rowPixels W game.field y n d.pixels }
  | 0, _ => by
    have : rowPixels W game.field y 0 d.pixels = d.pixels := by
      funext a b; simp [rowPixels]
    simp [this]
  | n + 1, hn => by
    rw [foldlM_range_succ, drawRow_upto hy game d n (by omega)]
    simp only [Option.some_bind]
    rw [drawCell_eq game _ (by omega) hy]
    congr 2
    funext a b
    simp only [rowPixels]
    by_cases hb : b = y
    · by_cases ha : a = n
      · subst ha; subst hb; simp
      · have h1 : a < n + 1 ↔ a < n := by omega
        simp [hb, ha, h1]
    · simp [hb]

/-- The outer loop of `gamePlayingDraw` after `m` iterations. -/
theorem gamePlayingDraw_upto {W H : Nat} (game : Game) (d : Display) :
    ∀ m, m ≤ H → (List.range m).foldlM (drawRow W H game) d =
      some { d with pixels := framePixels W game.field m d.pixels }
  | 0, _ => by
    have : framePixels W game.field 0 d.pixels = d.pixels := by
      funext a b; simp [framePixels]
    simp [this]
  | m + 1, hm => by
    rw [foldlM_range_succ, gamePlayingDraw_upto game d m (by omega)]
    simp only [Option.some_bind]
    unfold drawRow
    rw [drawRow_upto (by omega) game _ W le_rfl]
    congr 2
    funext a b
    simp only [rowPixels, framePixels]
    by_cases hb : b = m
    · subst hb; simp
    · have h1 : b < m + 1 ↔ b < m := by omega
      simp [hb, h1]

/-- The function `gamePlayingDraw` never fails and activates the pixels of the non-empty cells. -/
theorem gamePlayingDraw_eq (W H : Nat) (game : Game) (d : Display) :
    gamePlayingDraw W H game d =
      some { d with pixels := framePixels W game.field H d.pixels } :=
  gamePlayingDraw_upto game d H le_rfl

/-- C19: `gameDraw` returns the game state it was given and flushes the display
once. In the phase Playing, whatever the display held, pixel (x,y) is active
afterwards if and only if cell (x,y) of the grid is non-zero, for all
`x < OLED_WIDTH` and `y < OLED_HEIGHT`, no pixel outside the grid is active and
no string is drawn. In the phase GameOver no pixel is active and the only thing
drawn is the string "GAME OVER", centered at row `OLED_HEIGHT / 2`. -/
theorem render_step (W H : Nat) (s : Game) (d : Display) :
    ∃ d', gameDraw W H s d = some (s, d') ∧ d'.refreshes = d.refreshes + 1 ∧
      (s.state = GameState.STATE_PLAYING →
        (∀ x y, x < W → y < H → (d'.pixels x y = true ↔ s.field (y * W + x) ≠ 0)) ∧
        (∀ x y, d'.pixels x y = true → x < W ∧ y < H) ∧
        d'.labels = []) ∧
      (s.state = GameState.STATE_GAMEOVER →
        (∀ x y, d'.pixels x y = false) ∧ d'.labels = [(H / 2, "GAME OVER")]) := by
  cases hst : s.state with
  | STATE_PLAYING =>
    refine ⟨oledRefresh { oledClear d with
      pixels := framePixels W s.field H (oledClear d).pixels }, ?_, rfl, fun _ => ⟨?_, ?_, rfl⟩,
      fun h => absurd h (by decide)⟩
    · unfold gameDraw
      simp only [hst, gamePlayingDraw_eq]
    · intro x y hx hy
      show (false || decide (y < H ∧ x < W ∧ s.field (y * W + x) ≠ 0)) = true ↔ _
      simp [hx, hy]
    · intro x y h
      have h' : (false || decide (y < H ∧ x < W ∧ s.field (y * W + x) ≠ 0)) = true := h
      simp at h'
      exact ⟨h'.2.1, h'.1⟩
  | STATE_GAMEOVER =>
    refine ⟨oledRefresh (gameOverDraw H (oledClear d)), ?_, rfl,
      fun h => absurd h (by decide), fun _ => ⟨fun _ _ => rfl, rfl⟩⟩
    unfold gameDraw
    simp only [hst]

/-! ## The range of the cells and of the length -/

/-- The increment of a length between 16 and 32766 does not leave `int16_t`. -/
theorem wrap16_succ {len : Int} (h1 : 16 ≤ len) (h2 : len < 32767) :
    wrap16 (len + 1) = len + 1 := by
  unfold wrap16; omega

/-- The value-range predicate holds after `gameInit`. -/
theorem rangeInv_gameInit (W H : Nat) (g : Game) : RangeInv W H (gameInit g) :=
  ⟨show (16 : Int) ≤ 16 by decide,
    fun _ _ => ⟨show (-256 : Int) ≤ 0 by decide, show (0 : Int) ≤ 16 by decide⟩⟩

/-- The decay pass and the head write keep the value-range predicate, and the
length stays or grows by one. -/
theorem rangeInv_afterMove {W H : Nat} (button : Button) {s : Game} (hinv : RangeInv W H s)
    (hlen : s.len < 32767) :
    RangeInv W H (afterMove W H button s) ∧ s.len ≤ (afterMove W H button s).len ∧
      (afterMove W H button s).len ≤ s.len + 1 := by
  obtain ⟨h16, hcells⟩ := hinv
  have hl : (afterMove W H button s).len = lenAfterEating (destCell W button s) s.len := rfl
  have hrange : s.len ≤ lenAfterEating (destCell W button s) s.len ∧
      lenAfterEating (destCell W button s) s.len ≤ s.len + 1 := by
    unfold lenAfterEating
    split_ifs
    · rw [wrap16_succ h16 hlen]; omega
    · omega
  refine ⟨⟨by rw [hl]; omega, fun i hi => ?_⟩, by rw [hl]; exact hrange.1,
    by rw [hl]; exact hrange.2⟩
  rw [afterMove_field, hl]
  split_ifs
  · omega
  · obtain ⟨hlo, hhi⟩ := hcells i hi
    unfold passField
    rw [if_pos (by rw [Nat.mul_comm H W]; exact hi)]
    unfold decayValue
    split_ifs <;> omega

/-- The spawn keeps the value-range predicate. -/
theorem rangeInv_spawn {W H : Nat} {g : Game} (hinv : RangeInv W H g) (b : Nat) :
    RangeInv W H { g with field := Function.update g.field b (-256) } := by
  obtain ⟨h16, hcells⟩ := hinv
  refine ⟨h16, fun i hi => ?_⟩
  show -256 ≤ Function.update g.field b (-256) i ∧ Function.update g.field b (-256) i ≤ g.len
  rw [Function.update_apply]
  split_ifs
  · omega
  · exact hcells i hi

/-- C20: the predicate `RangeInv` (`len >= 16` and every cell of the grid
between -256 and `len`) holds in the state after `gameInit`, and every tick of
`gameUpdate` from a state that satisfies it with `len < 32767` returns a state
that satisfies it. In such a tick `len` stays or grows by one unless the tick
restarts the game (GameOver with the confirm edge), the increment of `len` does
not wrap, and the new `len` and all cells lie in the range of `int16_t`. -/
theorem value_range_invariant (W H : Nat) (button : Button) (rng : Rng) (s : Game)
    (hok : OledOk W H) (hinv : RangeInv W H s) (hlen : s.len < 32767) :
    (∀ g0 : Game, RangeInv W H (gameInit g0)) ∧
    ∃ g r, gameUpdate W H button rng s = some (g, r) ∧ RangeInv W H g ∧
      ((s.state = GameState.STATE_PLAYING ∨ button.YesUp = false) →
        s.len ≤ g.len ∧ g.len ≤ s.len + 1) ∧
      wrap16 (s.len + 1) = s.len + 1 ∧
      g.len ≤ 32767 ∧ (∀ i, i < W * H → -32768 ≤ g.field i ∧ g.field i ≤ 32767) := by
  refine ⟨rangeInv_gameInit W H, ?_⟩
  have hfinish : ∀ g : Game, RangeInv W H g → g.len ≤ s.len + 1 →
      g.len ≤ 32767 ∧ (∀ i, i < W * H → -32768 ≤ g.field i ∧ g.field i ≤ 32767) := by
    intro g hg hl
    refine ⟨by omega, fun i hi => ?_⟩
    obtain ⟨h1, h2⟩ := hg.2 i hi
    omega
  have hw := wrap16_succ hinv.1 hlen
  cases hst : s.state with
  | STATE_PLAYING =>
    rw [gameUpdate_playing W H button rng s hst]
    obtain ⟨hmove, hlo, hhi⟩ := rangeInv_afterMove button hinv hlen
    rcases tick_cases hok button rng s with ⟨-, h⟩ | ⟨-, -, -, h⟩ | ⟨-, -, -, h⟩
    · have hg : RangeInv W H { movedHead button s with state := GameState.STATE_GAMEOVER } := by
        refine ⟨?_, fun i hi => ?_⟩
        · show 16 ≤ (movedHead button s).len
          rw [movedHead_len]; exact hinv.1
        · show -256 ≤ (movedHead button s).field i ∧
            (movedHead button s).field i ≤ (movedHead button s).len
          rw [movedHead_field, movedHead_len]; exact hinv.2 i hi
      have hl : ({ movedHead button s with state := GameState.STATE_GAMEOVER } : Game).len
          = s.len := movedHead_len button s
      exact ⟨_, _, h, hg, fun _ => ⟨by rw [hl], by rw [hl]; omega⟩, hw,
        hfinish _ hg (by rw [hl]; omega)⟩
    · have hg := rangeInv_spawn hmove (bugCell W H rng)
      exact ⟨_, _, h, hg, fun _ => ⟨hlo, hhi⟩, hw, hfinish _ hg hhi⟩
    · exact ⟨_, _, h, hmove, fun _ => ⟨hlo, hhi⟩, hw, hfinish _ hmove hhi⟩
  | STATE_GAMEOVER =>
    rw [gameUpdate_gameover W H button rng s hst]
    cases hy : button.YesUp with
    | true =>
      have hg : gameOverUpdate button s = gameInit s := by
        unfold gameOverUpdate; rw [hy]; rfl
      rw [hg]
      have hl : (gameInit s).len ≤ s.len + 1 := by
        show (16 : Int) ≤ s.len + 1
        have := hinv.1
        omega
      refine ⟨_, _, rfl, rangeInv_gameInit W H s, fun h => ?_, hw,
        hfinish _ (rangeInv_gameInit W H s) hl⟩
      rcases h with h | h
      · exact absurd h (by decide)
      · exact absurd h (by decide)
    | false =>
      have hg : gameOverUpdate button s = s := by
        unfold gameOverUpdate; rw [hy]; rfl
      rw [hg]
      exact ⟨_, _, rfl, hinv, fun _ => ⟨le_rfl, by omega⟩, hw, hfinish _ hinv (by omega)⟩

/-- Witness of C20: the start state on a 128x64 display. -/
theorem value_range_invariant_witness :
    OledOk 128 64 ∧ RangeInv 128 64 (gameInit game) ∧ (gameInit game).len < 32767 ∧
    ∃ g r, gameUpdate 128 64 noButton noSpawn (gameInit game) = some (g, r) ∧
      RangeInv 128 64 g ∧
      (((gameInit game).state = GameState.STATE_PLAYING ∨ noButton.YesUp = false) →
        (gameInit game).len ≤ g.len ∧ g.len ≤ (gameInit game).len + 1) ∧
      wrap16 ((gameInit game).len + 1) = (gameInit game).len + 1 ∧
      g.len ≤ 32767 ∧ (∀ i, i < 128 * 64 → -32768 ≤ g.field i ∧ g.field i ≤ 32767) :=
  ⟨by decide, rangeInv_gameInit 128 64 game, by decide,
    (value_range_invariant 128 64 noButton noSpawn (gameInit game) (by decide)
      (rangeInv_gameInit 128 64 game) (by decide)).2⟩

end TrezorGame
